import Mathlib

/-!
Shallow embedding of the state-reconciliation core of the
`digitex_bot_framework` repository (file `market.py`, with the reference
data of `currency_pair.py` abstracted to ids), together with proofs
settling the specification claims about it.

Modelling conventions:
* `Decimal` prices/quantities and timestamps become `Int` (Decimal
  arithmetic here is only copy, subtraction and equality, all exact).
* A protobuf message is a record of already-decoded fields (the transport
  layer decodes the wire format; this core never touches bytes).
  `decimal_from_proto` / `datetime_from_proto` thus become plain field
  access.  `hasattr(message, 'status')` is modelled by the field
  `status : Option OrderStatus` being `some` (the field exists on some
  message types of the protocol and not on others).
* Python object mutation is explicit state passing; `self` (the `Market`
  object and everything hanging off it) becomes the record `MarketState`.
* A `uuid.UUID` identity token is an opaque `Nat`.
* Bound-method observer callbacks (`x.on_update`) are identified by the
  entity they belong to (the `Event` inductive); currency pairs are keyed
  by their id, orders by their client-order id.
* Fallible code (attribute access on `None`, `raise TypeError`) returns
  `Except String`.
* `asyncio.create_task(self.bot.client.order_book_request(...))` is
  modelled by incrementing a counter of issued snapshot requests;
  coroutines handed to the scheduler by `emit_event` are likewise counted.
-/

namespace BotFramework

/-- Order status enumeration (`enums.py`, not under `src/`).
Modelled from the spec: the live set is ACCEPTED together with the
partially-filled status (spec §3 writes it PARTIAL; it is named
`PART_FILLED` here), and the remaining statuses are terminal. -/
inductive OrderStatus
  | ACCEPTED
  | PART_FILLED
  | FILLED
  | CANCELED
  | REJECTED
  | EXPIRED
deriving DecidableEq, Repr

/-- An order entity (`order.py`, not under `src/`).
Modelled from the spec: identity is the client-generated correlation id;
attributes are price, quantity (remaining), side, type, duration, status
and an optional error code (spec §3).  `status` and `error_code` start
unset on a freshly constructed order; `market=self` back-reference is
dropped (it is the ambient `MarketState`). -/
structure Order where
  id : Nat
  price : Int
  quantity : Int
  side : Nat
  type : Nat
  duration : Nat
  status : Option OrderStatus
  error_code : Option Int
deriving DecidableEq, Repr

/-- The order registry (`Orders` of `order.py`, not under `src/`).
Modelled from the spec: a mapping id → Order plus three aggregate margin
figures supplied by the venue (spec §3), here an association list keyed
by the order id. -/
structure Orders where
  entries : List (Nat × Order)
  margin : Int
  buy_margin : Int
  sell_margin : Int
deriving DecidableEq, Repr

/-- First-match association-list lookup, the dictionary access backing
`Orders.look_up_by_id`. -/
def lookupOrder : List (Nat × Order) → Nat → Option Order
  | [], _ => none
  | p :: rest, id => if p.1 = id then some p.2 else lookupOrder rest id

/-- Modelled from the spec: registry lookup by client-order id (§4.2 step 2). -/
def Orders.look_up_by_id (os : Orders) (id : Nat) : Option Order :=
  lookupOrder os.entries id

/-- Modelled from the spec: registry insertion (§4.2 step 6), a dictionary
store keyed by the order's id. -/
def Orders.add (os : Orders) (o : Order) : Orders :=
  { os with entries := (o.id, o) :: os.entries }

/-- Modelled from the spec: registry removal (§4.2 step 6), deleting the
order's key. -/
def Orders.remove (os : Orders) (o : Order) : Orders :=
  { os with entries := os.entries.filter (fun p => p.1 ≠ o.id) }

/-- In Python the handler mutates the looked-up order object in place, so
the registry entry under that key silently becomes the updated order; in
the explicit-state embedding this is a map over the entries. -/
def Orders.updateEntry (os : Orders) (id : Nat) (o : Order) : Orders :=
  { os with entries := os.entries.map (fun p => if p.1 = id then (id, o) else p) }

def Orders.empty : Orders :=
  { entries := [], margin := 0, buy_margin := 0, sell_margin := 0 }

/-- A depth entry of one order-book side (`order_book.py`, not under
`src/`).  Modelled from the spec: each entry carries (price, quantity)
(spec §3); `OrderBookEntry.from_proto` is the identity on these decoded
fields. -/
structure OrderBookEntry where
  price : Int
  quantity : Int
deriving DecidableEq, Repr

/-- One price-keyed side of the book: a Python dict price → entry,
here an association list preserving dict insertion-order semantics. -/
abbrev OBMap : Type := List (Int × OrderBookEntry)

/-- Dict read `target[price]` / `price in target`: first match wins. -/
def obLookup : OBMap → Int → Option OrderBookEntry
  | [], _ => none
  | q :: rest, p => if q.1 = p then some q.2 else obLookup rest p

/-- Dict store `target[price] = entry`: replace in place if the key is
present, append otherwise. -/
def obStore : OBMap → Int → OrderBookEntry → OBMap
  | [], p, e => [(p, e)]
  | q :: rest, p, e => if q.1 = p then (p, e) :: rest else q :: obStore rest p e

/-- Dict delete `del target[price]`. -/
def obDelete (m : OBMap) (p : Int) : OBMap :=
  m.filter (fun q => q.1 ≠ p)

/-- The order book (`order_book.py`, not under `src/`).  Modelled from the
spec: two price-keyed side maps, absent (`None` in Python) until the first
snapshot arrives (spec §3). -/
structure OrderBook where
  bids : Option OBMap
  asks : Option OBMap
deriving DecidableEq, Repr

/-- The last trade (`trade.py`, not under `src/`).  Modelled from the
spec: price, quantity, timestamp, overwritten wholesale (spec §3). -/
structure Trade where
  price : Int
  quantity : Int
  time : Int
deriving DecidableEq, Repr

/-- The per-market position aggregate (`trader.py`, not under `src/`).
Modelled from the spec: contracts, volumes, margin and a type code, fully
overwritten on every relevant message (spec §3). -/
structure Position where
  contracts : Int
  volume : Int
  liquidation_volume : Int
  bankruptcy_volume : Int
  type : Nat
  margin : Int
deriving DecidableEq, Repr

/-- The per-market account aggregate (`trader.py`, not under `src/`).
Modelled from the spec: balance, unrealized and realized P&L, leverage,
owning the Position and the Order Registry (spec §3). -/
structure Trader where
  balance : Int
  upnl : Int
  pnl : Int
  leverage : Int
  position : Position
  orders : Orders
deriving DecidableEq, Repr

/-- Mutable market-observed fields of a `CurrencyPair`
(`currency_pair.py`): mark/sell/buy price and the reliability flag, all
starting unset. -/
structure CurrencyPairState where
  mark_price : Option Int
  sell_price : Option Int
  buy_price : Option Int
  unreliable : Option Bool
deriving DecidableEq, Repr

/-- Identity of an observer callback scheduled via `schedule_event`.  A
Python bound method `x.on_update` compares equal exactly when it is bound
to the same object, so events are keyed by the entity: currency pairs by
pair id, orders by client-order id. -/
inductive Event
  | trader_on_update
  | position_on_update
  | orders_on_margins_update
  | order_book_on_update
  | last_trade_on_update
  | currency_pair_on_update (pairId : Nat)
  | order_on_update (orderId : Nat)
deriving DecidableEq, Repr

/-- Everything reachable from `self` in `Market`'s handlers: the trader
(with position and order registry), the order book, the last trade, the
currency-pair table of the bot (`self.bot.currency_pairs`, with
`self.currency_pair` an alias of the entry at `currency_pair_id`), the
pending-notification list and the count of snapshot requests issued via
`asyncio.create_task`. -/
structure MarketState where
  market_id : Nat
  trader : Trader
  order_book : OrderBook
  last_trade : Option Trade
  currency_pair_id : Nat
  currency_pairs : List (Nat × CurrencyPairState)
  scheduled_events : List Event
  snapshot_requests : Nat
deriving DecidableEq, Repr

/-- First-match lookup in the bot's currency-pair table. -/
def cpLookup : List (Nat × CurrencyPairState) → Nat → Option CurrencyPairState
  | [], _ => none
  | q :: rest, pid => if q.1 = pid then some q.2 else cpLookup rest pid

/-- In-place mutation of one currency pair of the bot's table. -/
def cpUpdate (heap : List (Nat × CurrencyPairState)) (pid : Nat)
    (f : CurrencyPairState → CurrencyPairState) : List (Nat × CurrencyPairState) :=
  heap.map (fun q => if q.1 = pid then (q.1, f q.2) else q)

/-- The outer message fields `handle_order` reads from its
`outer_message` argument: the envelope's client id and error code. -/
structure Envelope where
  client_id : Nat
  error_code : Int
deriving DecidableEq, Repr

/-- An inner order report (the message argument of `handle_order`,
`handle_order_status_msg` and `handle_order_filled_message`): decoded
fields of `order_status_msg` / `order_filled_msg` / the per-order records
of `order_canceled_msg` and `trader_status_msg`.  `orig_client_id = none`
models empty bytes (falsy in `if message.orig_client_id:`); `status =
none` models a message type without a `status` field (`hasattr`). -/
structure OrderMsg where
  orig_client_id : Option Nat
  price : Int
  quantity : Int
  orig_quantity : Int
  dropped_quantity : Int
  side : Nat
  order_type : Nat
  duration : Nat
  status : Option OrderStatus
  trader_balance : Int
  upnl : Int
  pnl : Int
  position_contracts : Int
  position_volume : Int
  position_liquidation_volume : Int
  position_bankruptcy_volume : Int
  position_type : Nat
  position_margin : Int
  order_margin : Int
  buy_order_margin : Int
  sell_order_margin : Int
deriving DecidableEq, Repr

/-- Decoded fields of `trader_status_msg`. -/
structure TraderStatusMsg where
  trader_balance : Int
  upnl : Int
  pnl : Int
  mark_price : Int
  last_trade_price : Int
  last_trade_quantity : Int
  last_trade_timestamp : Int
  order_margin : Int
  buy_order_margin : Int
  sell_order_margin : Int
  position_contracts : Int
  position_volume : Int
  position_liquidation_volume : Int
  position_bankruptcy_volume : Int
  position_type : Nat
  position_margin : Int
  leverage : Int
  orders : List OrderMsg
deriving DecidableEq, Repr

/-- Decoded fields of `trader_balance_msg`. -/
structure TraderBalanceMsg where
  trader_balance : Int
  upnl : Int
  pnl : Int
  last_trade_price : Int
  last_trade_quantity : Int
  last_trade_timestamp : Int
  order_margin : Int
  buy_order_margin : Int
  sell_order_margin : Int
  position_contracts : Int
  position_volume : Int
  position_liquidation_volume : Int
  position_bankruptcy_volume : Int
  position_type : Nat
  position_margin : Int
deriving DecidableEq, Repr

/-- Decoded fields of `exchange_rate_msg`. -/
structure ExchangeRateMsg where
  currency_pair_id : Nat
  mark_price : Int
  sell_price : Int
  buy_price : Int
  unreliable : Int
deriving DecidableEq, Repr

/-- Decoded fields of `order_book_msg` (full snapshot). -/
structure OrderBookMsg where
  bids : List OrderBookEntry
  asks : List OrderBookEntry
  last_trade_price : Int
  last_trade_quantity : Int
  last_trade_timestamp : Int
  mark_price : Int
deriving DecidableEq, Repr

/-- Decoded fields of `order_book_updated_msg` (incremental update). -/
structure OrderBookUpdatedMsg where
  bid_updates : List OrderBookEntry
  ask_updates : List OrderBookEntry
  last_trade_price : Int
  last_trade_quantity : Int
  last_trade_timestamp : Int
deriving DecidableEq, Repr

/-- Decoded fields of `order_canceled_msg`. -/
structure OrderCanceledMsg where
  order_margin : Int
  buy_order_margin : Int
  sell_order_margin : Int
  mark_price : Int
  trader_balance : Int
  upnl : Int
  pnl : Int
  position_margin : Int
  status : OrderStatus
  orders : List OrderMsg
deriving DecidableEq, Repr

/-- Decoded fields of `leverage_msg`. -/
structure LeverageMsg where
  leverage : Int
  trader_balance : Int
  upnl : Int
  pnl : Int
  last_trade_price : Int
  last_trade_quantity : Int
  last_trade_timestamp : Int
  order_margin : Int
  buy_order_margin : Int
  sell_order_margin : Int
  position_contracts : Int
  position_volume : Int
  position_liquidation_volume : Int
  position_bankruptcy_volume : Int
  position_type : Nat
  position_margin : Int
deriving DecidableEq, Repr

/-- The discriminated union behind `message.WhichOneof('kontent')`. -/
inductive MessageKontent
  | trader_status_msg (m : TraderStatusMsg)
  | trader_balance_msg (m : TraderBalanceMsg)
  | exchange_rate_msg (m : ExchangeRateMsg)
  | order_book_msg (m : OrderBookMsg)
  | order_book_updated_msg (m : OrderBookUpdatedMsg)
  | order_status_msg (m : OrderMsg)
  | order_filled_msg (m : OrderMsg)
  | order_canceled_msg (m : OrderCanceledMsg)
  | leverage_msg (m : LeverageMsg)
  | unrecognized
deriving DecidableEq, Repr

/-- The outer inbound message: the oneof payload plus the envelope fields
(`client_id`, `error_code`) that `handle_order` reads off it. -/
structure Message where
  kontent : MessageKontent
  client_id : Nat
  error_code : Int
deriving DecidableEq, Repr

/-- Result of a notification callback, inspected by `emit_event`:
`nothing` is Python `None`, `coroutine` a coroutine object, `other` any
unsupported return shape. -/
inductive EventResult
  | nothing
  | coroutine
  | other
deriving DecidableEq, Repr

def EventResult.supported : EventResult → Bool
  | EventResult.other => false
  | _ => true

namespace Market

/-- `schedule_event` (market.py lines 47-49): idempotent append to the
pending list. -/
def schedule_event (s : MarketState) (event : Event) : MarketState :=
  if event ∈ s.scheduled_events then s
  else { s with scheduled_events := s.scheduled_events ++ [event] }

/-- `emit_event` (market.py lines 51-58): a `None` result returns
silently (`ok 0` tasks spawned), a coroutine is handed to
`asyncio.create_task` (`ok 1`), anything else raises `TypeError`.
(The source's `raise TypeError('Unsupported event return type: ' +
type(res))` itself crashes with a `TypeError` on the string
concatenation; either way a `TypeError` propagates.) -/
def emit_event (env : Event → EventResult) (event : Event) : Except String Nat :=
  match env event with
  | EventResult.nothing => Except.ok 0
  | EventResult.coroutine => Except.ok 1
  | EventResult.other => Except.error "TypeError: unsupported event return type"

/-- The flush loop at the end of `handle_message` (lines 84-86): emit
each pending event in order, accumulating the callbacks invoked and the
number of coroutine tasks spawned; a `TypeError` aborts the loop (and in
the source also skips the trailing `clear()`). -/
def run_events (env : Event → EventResult) :
    List Event → List Event → Nat → Except String (List Event × Nat)
  | [], acc, tasks => Except.ok (acc, tasks)
  | e :: rest, acc, tasks =>
    match emit_event env e with
    | Except.error msg => Except.error msg
    | Except.ok t => run_events env rest (acc ++ [e]) (tasks + t)

/-- `handle_mark_price` (lines 88-90): overwrite this market's own
currency pair's mark price and schedule that pair's `on_update`. -/
def handle_mark_price (s : MarketState) (mark_price : Int) : MarketState :=
  let s1 := { s with currency_pairs :=
    (cpUpdate s.currency_pairs s.currency_pair_id
      (fun cp => { cp with mark_price := some mark_price })) }
  schedule_event s1 (Event.currency_pair_on_update s.currency_pair_id)

/-- `create_order_from_message` (lines 92-101): construct a fresh Order
from the message's price/quantity/side/type/duration with the resolved
id; status and error code start unset. -/
def create_order_from_message (message : OrderMsg) (id : Nat) : Order :=
  { id := id
    price := message.price
    quantity := message.quantity
    side := message.side
    type := message.order_type
    duration := message.duration
    status := none
    error_code := none }

/-- Lines 104-107 of `handle_order`: resolve the identity token,
preferring the echoed inner client id and falling back to the envelope's;
with neither (empty inner id and `outer_message=None`) the Python code
dereferences `None` and raises `AttributeError`. -/
def resolve_order_id (message : OrderMsg) (outer_message : Option Envelope) :
    Except String Nat :=
  match message.orig_client_id with
  | some cid => Except.ok cid
  | none =>
    match outer_message with
    | some outer => Except.ok outer.client_id
    | none => Except.error "AttributeError: NoneType object has no attribute client_id"

/-- `statuses_to_keep` (line 126). -/
def statuses_to_keep : List OrderStatus :=
  [OrderStatus.ACCEPTED, OrderStatus.PART_FILLED]

/-- `order.status in statuses_to_keep`, with an unset status (Python
`None`) not in the keep set. -/
def statusInKeep : Option OrderStatus → Bool
  | some st => statuses_to_keep.contains st
  | none => false

/-- Return value of `handle_order`: the (possibly new) registry, the
reconciled order and the `have_seen_this_order_before` flag. -/
structure HandleOrderResult where
  orders : Orders
  order : Order
  have_seen : Bool
deriving DecidableEq, Repr

/-- Lines 113-121 of `handle_order`: determine the status of the order,
in priority order explicit message field, caller-supplied forced status,
then (only for a previously unseen order) the ACCEPTED/PART_FILLED
inference from the orig-quantity comparison. -/
def determine_status (message : OrderMsg) (forced_status : Option OrderStatus)
    (have_seen_this_order_before : Bool) (order0 : Order) : Order :=
  match message.status with
  | some st => { order0 with status := some st }
  | none =>
    match forced_status with
    | some st => { order0 with status := some st }
    | none =>
      if have_seen_this_order_before then order0
      else if message.orig_quantity ≠ order0.quantity then
        { order0 with status := some OrderStatus.PART_FILLED }
      else
        { order0 with status := some OrderStatus.ACCEPTED }

/-- Lines 123-124 of `handle_order`: a nonzero envelope error code is
attached to the order being reconciled. -/
def attach_error (outer_message : Option Envelope) (order1 : Order) : Order :=
  match outer_message with
  | some outer =>
    if outer.error_code ≠ 0 then { order1 with error_code := some outer.error_code }
    else order1
  | none => order1

/-- Lines 108-132 of `handle_order`, after the id has been resolved:
look up the order (constructing one if unknown), determine the status,
attach a nonzero envelope error code, and apply the registry-membership
rule (lines 126-130). -/
def handle_order_core (orders : Orders) (message : OrderMsg)
    (outer_message : Option Envelope) (forced_status : Option OrderStatus)
    (id : Nat) : HandleOrderResult :=
  let looked := orders.look_up_by_id id
  let have_seen_this_order_before := looked.isSome
  let order0 :=
    match looked with
    | some o => o
    | none => create_order_from_message message id
  let order2 := attach_error outer_message
    (determine_status message forced_status have_seen_this_order_before order0)
  let orders1 :=
    if have_seen_this_order_before then orders.updateEntry id order2 else orders
  let orders2 :=
    if have_seen_this_order_before && !statusInKeep order2.status then
      orders1.remove order2
    else if !have_seen_this_order_before && statusInKeep order2.status then
      orders1.add order2
    else orders1
  { orders := orders2, order := order2, have_seen := have_seen_this_order_before }

/-- `handle_order` (lines 103-132). -/
def handle_order (orders : Orders) (message : OrderMsg)
    (outer_message : Option Envelope) (forced_status : Option OrderStatus) :
    Except String HandleOrderResult :=
  match resolve_order_id message outer_message with
  | Except.error e => Except.error e
  | Except.ok id =>
    Except.ok (handle_order_core orders message outer_message forced_status id)

/-- Replace the trader's order registry (the Python code mutates
`self.trader.orders` through the methods of `Orders`). -/
def setOrders (s : MarketState) (os : Orders) : MarketState :=
  { s with trader := { s.trader with orders := os } }

/-- `handle_last_trade` (lines 182-189): overwrite the last trade
wholesale (creating it if absent) and schedule its `on_update`. -/
def handle_last_trade (s : MarketState) (price quantity time : Int) : MarketState :=
  let s1 := { s with last_trade := some { price := price, quantity := quantity, time := time } }
  schedule_event s1 Event.last_trade_on_update

/-- `handle_position` (lines 191-199): fully overwrite the position and
schedule its `on_update`. -/
def handle_position (s : MarketState)
    (contracts volume liquidation_volume bankruptcy_volume : Int)
    (ptype : Nat) (margin : Int) : MarketState :=
  let s1 := { s with trader := { s.trader with position :=
    { contracts := contracts
      volume := volume
      liquidation_volume := liquidation_volume
      bankruptcy_volume := bankruptcy_volume
      type := ptype
      margin := margin } } }
  schedule_event s1 Event.position_on_update

/-- `handle_order_margin` (lines 201-207): overwrite the registry's three
aggregate margin figures and schedule `on_margins_update`. -/
def handle_order_margin (s : MarketState)
    (order_margin buy_order_margin sell_order_margin : Int) : MarketState :=
  let os := s.trader.orders
  let s1 := setOrders s
    { os with margin := order_margin, buy_margin := buy_order_margin,
              sell_margin := sell_order_margin }
  schedule_event s1 Event.orders_on_margins_update

/-- `handle_leverage` (lines 209-215): a reported leverage of exactly
zero is treated as unset and ignored; otherwise set it and schedule the
trader's `on_update`. -/
def handle_leverage (s : MarketState) (leverage : Int) : MarketState :=
  if leverage = 0 then s
  else
    let s1 := { s with trader := { s.trader with leverage := leverage } }
    schedule_event s1 Event.trader_on_update

/-- `handle_balance` (lines 217-222): overwrite balance and P&L figures
and schedule the trader's `on_update`. -/
def handle_balance (s : MarketState) (trader_balance upnl pnl : Int) : MarketState :=
  let s1 := { s with trader := { s.trader with balance := trader_balance,
                                               upnl := upnl, pnl := pnl } }
  schedule_event s1 Event.trader_on_update

/-- `populate_orderbook` (lines 224-230): for each entry, delete its
price key when the quantity is zero and the key exists, otherwise store
the entry under its price. -/
def populate_orderbook (target : OBMap) (source : List OrderBookEntry) : OBMap :=
  match source with
  | [] => target
  | entry :: rest =>
    let target1 :=
      if entry.quantity = 0 ∧ (obLookup target entry.price).isSome then
        obDelete target entry.price
      else
        obStore target entry.price entry
    populate_orderbook target1 rest

/-- `handle_order_book_msg` (lines 232-244): clear (or initialize) both
sides, merge the snapshot entries, then update last trade and mark price
and schedule the book's `on_update`. -/
def handle_order_book_msg (s : MarketState) (m : OrderBookMsg) : MarketState :=
  let s1 := { s with order_book :=
    { bids := some (populate_orderbook [] m.bids)
      asks := some (populate_orderbook [] m.asks) } }
  let s2 := handle_last_trade s1 m.last_trade_price m.last_trade_quantity m.last_trade_timestamp
  let s3 := handle_mark_price s2 m.mark_price
  schedule_event s3 Event.order_book_on_update

/-- `handle_order_book_updated_msg` (lines 246-255): with an initialized
book merge both diffs and schedule the book's `on_update`; with an
uninitialized book leave the depth untouched and fire a snapshot request
instead.  Either way `handle_last_trade` runs twice (the duplication is
in the source). -/
def handle_order_book_updated_msg (s : MarketState) (m : OrderBookUpdatedMsg) :
    MarketState :=
  let s1 :=
    match s.order_book.bids with
    | some bids =>
      -- The source checks only `bids is not None`; both sides are always
      -- set together by the snapshot handler, so `asks` is present
      -- whenever `bids` is (Python would raise on a one-sided book).
      let asks :=
        match s.order_book.asks with
        | some a => a
        | none => []
      let s1 := { s with order_book :=
        { bids := some (populate_orderbook bids m.bid_updates)
          asks := some (populate_orderbook asks m.ask_updates) } }
      schedule_event s1 Event.order_book_on_update
    | none =>
      { s with snapshot_requests := s.snapshot_requests + 1 }
  let s2 := handle_last_trade s1 m.last_trade_price m.last_trade_quantity m.last_trade_timestamp
  handle_last_trade s2 m.last_trade_price m.last_trade_quantity m.last_trade_timestamp

/-- `handle_exchange_rate_msg` (lines 257-269): ignore pairs the bot does
not track; otherwise overwrite that pair's mark/sell/buy price and
reliability flag directly and schedule that pair's `on_update`. -/
def handle_exchange_rate_msg (s : MarketState) (m : ExchangeRateMsg) : MarketState :=
  match cpLookup s.currency_pairs m.currency_pair_id with
  | none => s
  | some _ =>
    let s1 := { s with currency_pairs :=
      (cpUpdate s.currency_pairs m.currency_pair_id
        (fun cp => { cp with mark_price := some m.mark_price,
                             sell_price := some m.sell_price,
                             buy_price := some m.buy_price,
                             unreliable := some (m.unreliable ≠ 0) })) }
    schedule_event s1 (Event.currency_pair_on_update m.currency_pair_id)

/-- `handle_order_status_msg` (lines 135-142): on a non-error envelope
update balance, position and order margins; then reconcile the order and
schedule its `on_update`. -/
def handle_order_status_msg (s : MarketState) (message : OrderMsg)
    (outer : Envelope) : Except String MarketState :=
  let s1 :=
    if outer.error_code = 0 then
      let sa := handle_balance s message.trader_balance message.upnl message.pnl
      let sb := handle_position sa message.position_contracts message.position_volume
        message.position_liquidation_volume message.position_bankruptcy_volume
        message.position_type message.position_margin
      handle_order_margin sb message.order_margin message.buy_order_margin
        message.sell_order_margin
    else s
  match handle_order s1.trader.orders message (some outer) none with
  | Except.error e => Except.error e
  | Except.ok r =>
    let s2 := setOrders s1 r.orders
    Except.ok (schedule_event s2 (Event.order_on_update r.order.id))

/-- `handle_order_filled_message` (lines 144-154): reconcile the order,
then set its quantity to the message's orig-quantity minus quantity minus
dropped-quantity, and schedule its `on_update`.  NOTE: this method is
dead code — the dispatcher (line 75) routes `order_filled_msg` to
`handle_order_status_msg` instead. -/
def handle_order_filled_message (s : MarketState) (message : OrderMsg)
    (outer : Envelope) : Except String MarketState :=
  let sa := handle_position s message.position_contracts message.position_volume
    message.position_liquidation_volume message.position_bankruptcy_volume
    message.position_type message.position_margin
  let sb := handle_balance sa message.trader_balance message.upnl message.pnl
  let s1 := handle_order_margin sb message.order_margin message.buy_order_margin
    message.sell_order_margin
  match handle_order s1.trader.orders message (some outer) none with
  | Except.error e => Except.error e
  | Except.ok r =>
    let newQty := message.orig_quantity - message.quantity - message.dropped_quantity
    let order1 := { r.order with quantity := newQty }
    -- `order.quantity = ...` mutates the object in place: when the order
    -- is registry-resident its entry changes too.
    let os1 :=
      if (r.orders.look_up_by_id order1.id).isSome then
        r.orders.updateEntry order1.id order1
      else r.orders
    let s2 := setOrders s1 os1
    Except.ok (schedule_event s2 (Event.order_on_update order1.id))

/-- The per-order loop of `handle_order_canceled_msg` (lines 166-172):
reconcile each referenced order with the forced status and schedule its
`on_update`. -/
def handle_canceled_orders (s : MarketState) (outer : Envelope)
    (forced : OrderStatus) : List OrderMsg → Except String MarketState
  | [] => Except.ok s
  | om :: rest =>
    match handle_order s.trader.orders om (some outer) (some forced) with
    | Except.error e => Except.error e
    | Except.ok r =>
      let s1 := setOrders s r.orders
      let s2 := schedule_event s1 (Event.order_on_update r.order.id)
      handle_canceled_orders s2 outer forced rest

/-- `handle_order_canceled_msg` (lines 156-172). -/
def handle_order_canceled_msg (s : MarketState) (m : OrderCanceledMsg)
    (outer : Envelope) : Except String MarketState :=
  let s1 := handle_order_margin s m.order_margin m.buy_order_margin m.sell_order_margin
  let s2 := handle_mark_price s1 m.mark_price
  let s3 := handle_balance s2 m.trader_balance m.upnl m.pnl
  let s4 := { s3 with trader := { s3.trader with position :=
    { s3.trader.position with margin := m.position_margin } } }
  let s5 := schedule_event s4 Event.position_on_update
  handle_canceled_orders s5 outer m.status m.orders

/-- `handle_leverage_msg` (lines 174-180). -/
def handle_leverage_msg (s : MarketState) (m : LeverageMsg) (outer : Envelope) :
    MarketState :=
  let s1 := handle_leverage s m.leverage
  if outer.error_code = 0 then
    let s2 := handle_balance s1 m.trader_balance m.upnl m.pnl
    let s3 := handle_position s2 m.position_contracts m.position_volume
      m.position_liquidation_volume m.position_bankruptcy_volume
      m.position_type m.position_margin
    let s4 := handle_order_margin s3 m.order_margin m.buy_order_margin m.sell_order_margin
    handle_last_trade s4 m.last_trade_price m.last_trade_quantity m.last_trade_timestamp
  else s1

/-- The embedded-order loop of `handle_trader_status_msg` (lines 279-281):
reconcile each embedded order record with NO outer envelope and schedule
its `on_update`. -/
def handle_trader_status_orders (s : MarketState) :
    List OrderMsg → Except String MarketState
  | [] => Except.ok s
  | om :: rest =>
    match handle_order s.trader.orders om none none with
    | Except.error e => Except.error e
    | Except.ok r =>
      let s1 := setOrders s r.orders
      let s2 := schedule_event s1 (Event.order_on_update r.order.id)
      handle_trader_status_orders s2 rest

/-- `handle_trader_status_msg` (lines 271-281). -/
def handle_trader_status_msg (s : MarketState) (m : TraderStatusMsg) :
    Except String MarketState :=
  let s1 := handle_balance s m.trader_balance m.upnl m.pnl
  let s2 := handle_mark_price s1 m.mark_price
  let s3 := handle_last_trade s2 m.last_trade_price m.last_trade_quantity m.last_trade_timestamp
  let s4 := handle_order_margin s3 m.order_margin m.buy_order_margin m.sell_order_margin
  let s5 := handle_position s4 m.position_contracts m.position_volume
    m.position_liquidation_volume m.position_bankruptcy_volume
    m.position_type m.position_margin
  let s6 := handle_leverage s5 m.leverage
  handle_trader_status_orders s6 m.orders

/-- `handle_trader_balance_msg` (lines 283-287). -/
def handle_trader_balance_msg (s : MarketState) (m : TraderBalanceMsg) : MarketState :=
  let s1 := handle_balance s m.trader_balance m.upnl m.pnl
  let s2 := handle_last_trade s1 m.last_trade_price m.last_trade_quantity m.last_trade_timestamp
  let s3 := handle_order_margin s2 m.order_margin m.buy_order_margin m.sell_order_margin
  handle_position s3 m.position_contracts m.position_volume
    m.position_liquidation_volume m.position_bankruptcy_volume
    m.position_type m.position_margin

/-- `handle_message` (lines 60-86): dispatch on the payload kind (an
unrecognized kind is silently ignored), then flush the pending events —
each scheduled callback is emitted once and the list cleared.  Returns
the final state and the list of callbacks invoked.  Note line 75: an
`order_filled_msg` is routed to `handle_order_status_msg`;
`handle_order_filled_message` is never invoked. -/
def handle_message (env : Event → EventResult) (message : Message)
    (s : MarketState) : Except String (MarketState × List Event) :=
  let dispatched : Except String MarketState :=
    match message.kontent with
    | MessageKontent.trader_status_msg m => handle_trader_status_msg s m
    | MessageKontent.trader_balance_msg m => Except.ok (handle_trader_balance_msg s m)
    | MessageKontent.exchange_rate_msg m => Except.ok (handle_exchange_rate_msg s m)
    | MessageKontent.order_book_msg m => Except.ok (handle_order_book_msg s m)
    | MessageKontent.order_book_updated_msg m => Except.ok (handle_order_book_updated_msg s m)
    | MessageKontent.order_status_msg m =>
      handle_order_status_msg s m { client_id := message.client_id, error_code := message.error_code }
    | MessageKontent.order_filled_msg m =>
      handle_order_status_msg s m { client_id := message.client_id, error_code := message.error_code }
    | MessageKontent.order_canceled_msg m =>
      handle_order_canceled_msg s m { client_id := message.client_id, error_code := message.error_code }
    | MessageKontent.leverage_msg m =>
      Except.ok (handle_leverage_msg s m { client_id := message.client_id, error_code := message.error_code })
    | MessageKontent.unrecognized => Except.ok s
  match dispatched with
  | Except.error e => Except.error e
  | Except.ok s1 =>
    match run_events env s1.scheduled_events [] 0 with
    | Except.error e => Except.error e
    | Except.ok (emitted, _tasks) =>
      Except.ok ({ s1 with scheduled_events := [] }, emitted)

end Market

/-! ### Derived predicates and projection helpers used by the theorems -/

/-- All orders stored in the registry have a status in the live set. -/
def Orders.allLive (os : Orders) : Bool :=
  os.entries.all (fun p => Market.statusInKeep p.2.status)

/-- Every registry entry is stored under its own order id. -/
def Orders.keysOk (os : Orders) : Bool :=
  os.entries.all (fun p => p.1 == p.2.id)

/-- Registry well-formedness: keys match ids and every stored order is
live.  Holds for the empty registry and is preserved by reconciliation. -/
def Orders.wf (os : Orders) : Bool :=
  os.keysOk && os.allLive

/-- One reconciliation input: the inner order report, the optional outer
envelope and the optional caller-forced status. -/
abbrev ReconInput : Type := OrderMsg × Option Envelope × Option OrderStatus

/-- A whole sequence of `handle_order` calls, threading the registry; a
failed call (unresolvable identity) aborts that message only, leaving the
registry as it was (spec §7 propagation policy). -/
def runReconciliations (inputs : List ReconInput) (os : Orders) : Orders :=
  match inputs with
  | [] => os
  | i :: rest =>
    match Market.handle_order os i.1 i.2.1 i.2.2 with
    | Except.ok r => runReconciliations rest r.orders
    | Except.error _ => runReconciliations rest os

def isOkE {α : Type} (x : Except String α) : Bool :=
  match x with
  | Except.ok _ => true
  | Except.error _ => false

def resultOrders (x : Except String Market.HandleOrderResult) : Option Orders :=
  match x with
  | Except.ok r => some r.orders
  | Except.error _ => none

def resultOrder (x : Except String Market.HandleOrderResult) : Option Order :=
  match x with
  | Except.ok r => some r.order
  | Except.error _ => none

def stateOf (x : Except String (MarketState × List Event)) : Option MarketState :=
  match x with
  | Except.ok r => some r.1
  | Except.error _ => none

def emittedOf (x : Except String (MarketState × List Event)) : Option (List Event) :=
  match x with
  | Except.ok r => some r.2
  | Except.error _ => none

def stateOfS (x : Except String MarketState) : Option MarketState :=
  match x with
  | Except.ok s => some s
  | Except.error _ => none

/-- Quantity of the registry order with the given id, if any. -/
def registryQty (s : MarketState) (id : Nat) : Option Int :=
  (s.trader.orders.look_up_by_id id).map Order.quantity

/-! ### Concrete fixtures for witnesses and counterexamples -/

def zeroPosition : Position :=
  { contracts := 0, volume := 0, liquidation_volume := 0,
    bankruptcy_volume := 0, type := 0, margin := 0 }

def baseTrader : Trader :=
  { balance := 0, upnl := 0, pnl := 0, leverage := 0,
    position := zeroPosition, orders := Orders.empty }

def emptyCp : CurrencyPairState :=
  { mark_price := none, sell_price := none, buy_price := none, unreliable := none }

/-- A market state as it stands right after startup: empty registry, no
book snapshot yet, no last trade, one tracked currency pair. -/
def baseState : MarketState :=
  { market_id := 1
    trader := baseTrader
    order_book := { bids := none, asks := none }
    last_trade := none
    currency_pair_id := 1
    currency_pairs := [(1, emptyCp)]
    scheduled_events := []
    snapshot_requests := 0 }

/-- An environment in which every observer callback returns `None`. -/
def envNothing : Event → EventResult := fun _ => EventResult.nothing

/-- An all-zero inner order report, to be overridden field by field. -/
def zeroOrderMsg : OrderMsg :=
  { orig_client_id := none
    price := 0, quantity := 0, orig_quantity := 0, dropped_quantity := 0
    side := 0, order_type := 0, duration := 0
    status := none
    trader_balance := 0, upnl := 0, pnl := 0
    position_contracts := 0, position_volume := 0
    position_liquidation_volume := 0, position_bankruptcy_volume := 0
    position_type := 0, position_margin := 0
    order_margin := 0, buy_order_margin := 0, sell_order_margin := 0 }

/-- A live ACCEPTED order with id 7, price 100, quantity 10. -/
def order7 : Order :=
  { id := 7, price := 100, quantity := 10, side := 1, type := 1, duration := 1,
    status := some OrderStatus.ACCEPTED, error_code := none }

/-- A registry holding exactly `order7`. -/
def ordersWith7 : Orders :=
  Orders.add Orders.empty order7

/-- `baseState` with `order7` live in the registry. -/
def stateWith7 : MarketState :=
  Market.setOrders baseState ordersWith7

/-- The fill report of the spec scenario (§8): orig-quantity 10,
quantity 4, dropped-quantity 1, echoing order 7's client id; protocol
fill reports carry no explicit `status` field. -/
def fillMsg7 : OrderMsg :=
  { zeroOrderMsg with orig_client_id := some 7, price := 100,
                      quantity := 4, orig_quantity := 10, dropped_quantity := 1 }

/-- `fillMsg7` with an explicit terminal status, as an `order_status_msg`
for a fill would carry it. -/
def filledMsg7 : OrderMsg :=
  { fillMsg7 with status := some OrderStatus.FILLED }

/-! ### Frame and bookkeeping lemmas about `schedule_event` -/

@[simp]
lemma schedule_event_market_id (s : MarketState) (e : Event) :
    (Market.schedule_event s e).market_id = s.market_id := by
  unfold Market.schedule_event; split <;> rfl

@[simp]
lemma schedule_event_trader (s : MarketState) (e : Event) :
    (Market.schedule_event s e).trader = s.trader := by
  unfold Market.schedule_event; split <;> rfl

@[simp]
lemma schedule_event_order_book (s : MarketState) (e : Event) :
    (Market.schedule_event s e).order_book = s.order_book := by
  unfold Market.schedule_event; split <;> rfl

@[simp]
lemma schedule_event_last_trade (s : MarketState) (e : Event) :
    (Market.schedule_event s e).last_trade = s.last_trade := by
  unfold Market.schedule_event; split <;> rfl

@[simp]
lemma schedule_event_currency_pair_id (s : MarketState) (e : Event) :
    (Market.schedule_event s e).currency_pair_id = s.currency_pair_id := by
  unfold Market.schedule_event; split <;> rfl

@[simp]
lemma schedule_event_currency_pairs (s : MarketState) (e : Event) :
    (Market.schedule_event s e).currency_pairs = s.currency_pairs := by
  unfold Market.schedule_event; split <;> rfl

@[simp]
lemma schedule_event_snapshot_requests (s : MarketState) (e : Event) :
    (Market.schedule_event s e).snapshot_requests = s.snapshot_requests := by
  unfold Market.schedule_event; split <;> rfl

lemma schedule_event_scheduled (s : MarketState) (e : Event) :
    (Market.schedule_event s e).scheduled_events =
      if e ∈ s.scheduled_events then s.scheduled_events
      else s.scheduled_events ++ [e] := by
  unfold Market.schedule_event; split <;> simp_all

lemma mem_schedule_event (s : MarketState) (e e' : Event) :
    e' ∈ (Market.schedule_event s e).scheduled_events ↔
      e' ∈ s.scheduled_events ∨ e' = e := by
  rw [schedule_event_scheduled]
  by_cases h : e ∈ s.scheduled_events
  · simp only [if_pos h]
    constructor
    · exact Or.inl
    · rintro (h' | rfl)
      · exact h'
      · exact h
  · simp [if_neg h, List.mem_append]

lemma nodup_schedule_event (s : MarketState) (e : Event)
    (h : s.scheduled_events.Nodup) :
    (Market.schedule_event s e).scheduled_events.Nodup := by
  rw [schedule_event_scheduled]
  split
  · exact h
  · simpa [List.nodup_append] using ⟨h, by assumption⟩

lemma count_schedule_event_ne (s : MarketState) (e e' : Event) (h : e' ≠ e) :
    (Market.schedule_event s e).scheduled_events.count e' =
      s.scheduled_events.count e' := by
  rw [schedule_event_scheduled]
  split
  · rfl
  · simp [List.count_append, h]

lemma schedule_event_schedule_event (s : MarketState) (e : Event) :
    Market.schedule_event (Market.schedule_event s e) e = Market.schedule_event s e := by
  unfold Market.schedule_event
  by_cases h : e ∈ s.scheduled_events <;> simp [h]

/-! ### Frame lemmas about `handle_last_trade` -/

@[simp]
lemma handle_last_trade_order_book (s : MarketState) (p q t : Int) :
    (Market.handle_last_trade s p q t).order_book = s.order_book := by
  simp [Market.handle_last_trade]

@[simp]
lemma handle_last_trade_trader (s : MarketState) (p q t : Int) :
    (Market.handle_last_trade s p q t).trader = s.trader := by
  simp [Market.handle_last_trade]

@[simp]
lemma handle_last_trade_currency_pairs (s : MarketState) (p q t : Int) :
    (Market.handle_last_trade s p q t).currency_pairs = s.currency_pairs := by
  simp [Market.handle_last_trade]

@[simp]
lemma handle_last_trade_snapshot_requests (s : MarketState) (p q t : Int) :
    (Market.handle_last_trade s p q t).snapshot_requests = s.snapshot_requests := by
  simp [Market.handle_last_trade]

@[simp]
lemma handle_last_trade_last_trade (s : MarketState) (p q t : Int) :
    (Market.handle_last_trade s p q t).last_trade =
      some { price := p, quantity := q, time := t } := by
  simp [Market.handle_last_trade]

lemma mem_handle_last_trade (s : MarketState) (p q t : Int) (e : Event) :
    e ∈ (Market.handle_last_trade s p q t).scheduled_events ↔
      e ∈ s.scheduled_events ∨ e = Event.last_trade_on_update := by
  unfold Market.handle_last_trade
  rw [mem_schedule_event]

lemma handle_last_trade_handle_last_trade (s : MarketState) (p q t : Int) :
    Market.handle_last_trade (Market.handle_last_trade s p q t) p q t =
      Market.handle_last_trade s p q t := by
  unfold Market.handle_last_trade
  by_cases h : Event.last_trade_on_update ∈ s.scheduled_events <;>
    simp [Market.schedule_event, h]

/-! ### Lemmas about the order-book side maps -/

lemma obLookup_obStore (m : OBMap) (p : Int) (e : OrderBookEntry) (k : Int) :
    obLookup (obStore m p e) k = if p = k then some e else obLookup m k := by
  induction m with
  | nil => simp [obStore, obLookup]
  | cons q rest ih =>
    by_cases hq : q.1 = p <;> by_cases hqk : q.1 = k <;> by_cases hpk : p = k <;>
      simp_all [obStore, obLookup]

lemma obLookup_obDelete (m : OBMap) (p k : Int) :
    obLookup (obDelete m p) k = if p = k then none else obLookup m k := by
  induction m with
  | nil => simp [obDelete, obLookup]
  | cons q rest ih =>
    by_cases hq : q.1 = p <;> by_cases hqk : q.1 = k <;> by_cases hpk : p = k <;>
      simp_all [obDelete, obLookup, List.filter_cons]

/-! ### Lemmas about the flush loop -/

lemma isOkE_run_events (env : Event → EventResult) (evs : List Event) :
    ∀ acc t, isOkE (Market.run_events env evs acc t) =
      evs.all (fun x => (env x).supported) := by
  induction evs with
  | nil => intro acc t; simp [Market.run_events, isOkE]
  | cons e rest ih =>
    intro acc t
    cases h : env e
    · have hstep : Market.run_events env (e :: rest) acc t
          = Market.run_events env rest (acc ++ [e]) t := by
        simp [Market.run_events, Market.emit_event, h]
      rw [hstep, ih]
      simp [h, EventResult.supported]
    · have hstep : Market.run_events env (e :: rest) acc t
          = Market.run_events env rest (acc ++ [e]) (t + 1) := by
        simp [Market.run_events, Market.emit_event, h]
      rw [hstep, ih]
      simp [h, EventResult.supported]
    · have hstep : Market.run_events env (e :: rest) acc t
          = Except.error "TypeError: unsupported event return type" := by
        simp [Market.run_events, Market.emit_event, h]
      rw [hstep]
      simp [h, EventResult.supported, isOkE]

lemma run_events_ok (env : Event → EventResult) (evs : List Event)
    (h : ∀ e ∈ evs, (env e).supported = true) :
    ∀ acc t, ∃ tasks, Market.run_events env evs acc t = Except.ok (acc ++ evs, tasks) := by
  induction evs with
  | nil => intro acc t; exact ⟨t, by simp [Market.run_events]⟩
  | cons e rest ih =>
    intro acc t
    have he : (env e).supported = true := h e (by simp)
    have hrest : ∀ e ∈ rest, (env e).supported = true :=
      fun x hx => h x (List.mem_cons_of_mem _ hx)
    cases henv : env e
    · obtain ⟨tasks, htasks⟩ := ih hrest (acc ++ [e]) t
      refine ⟨tasks, ?_⟩
      have hstep : Market.run_events env (e :: rest) acc t
          = Market.run_events env rest (acc ++ [e]) t := by
        simp [Market.run_events, Market.emit_event, henv]
      rw [hstep, htasks]
      simp
    · obtain ⟨tasks, htasks⟩ := ih hrest (acc ++ [e]) (t + 1)
      refine ⟨tasks, ?_⟩
      have hstep : Market.run_events env (e :: rest) acc t
          = Market.run_events env rest (acc ++ [e]) (t + 1) := by
        simp [Market.run_events, Market.emit_event, henv]
      rw [hstep, htasks]
      simp
    · rw [henv] at he; simp [EventResult.supported] at he

/-! ### Claim theorems, first group -/

/-- Claim C1 (code bug): the spec says handling an order-filled message
decrements the tracked quantity to orig-quantity − quantity −
dropped-quantity (10 − 4 − 1 = 5 in the §8 scenario), and
`handle_order_filled_message` implements exactly that; but the dispatcher
(market.py line 75) routes `order_filled_msg` to `handle_order_status_msg`
instead, so the dead fill handler never runs and the known order keeps
quantity 10.  This theorem evaluates both paths at the failing input:
dispatching the fill message leaves the registry order at quantity 10,
while the (unreachable) `handle_order_filled_message` would leave it at
the specified 5. -/
theorem c1_fill_dispatch_bug :
    ((stateOf (Market.handle_message envNothing
        { kontent := MessageKontent.order_filled_msg fillMsg7,
          client_id := 7, error_code := 0 } stateWith7)).map
      (fun s => registryQty s 7) = some (some 10))
    ∧ ((stateOfS (Market.handle_order_filled_message stateWith7 fillMsg7
        { client_id := 7, error_code := 0 })).map
      (fun s => registryQty s 7) = some (some 5)) := by
  constructor <;> rfl

/-- Claim C3, counterexample: applying the single entry (price 5,
quantity 0) to a map in which price 5 is absent is NOT a no-op — the
else-branch of `populate_orderbook` stores the zero-quantity entry under
the absent key, so the empty map becomes nonempty. -/
theorem c3_zero_quantity_insert_counterexample :
    Market.populate_orderbook [] [{ price := 5, quantity := 0 }] ≠ ([] : OBMap) := by
  decide

/-- Claim C3, amended: the merge deletes a price level exactly when the
entry's quantity is zero AND the price key exists, and otherwise stores
the entry under its key — including storing a zero-quantity entry when
the key is absent, so applying [(p, 0)] with p absent is not a no-op but
inserts a zero-quantity level at p; and applying [(p, q1), (p, 0)] with
q1 ≠ 0 leaves level p absent. -/
theorem c3_merge_rule_amended (t : OBMap) (e : OrderBookEntry) (k p q1 : Int)
    (hq : q1 ≠ 0) (hp : obLookup t p = none) :
    (obLookup (Market.populate_orderbook t [e]) k
      = if e.price = k then
          (if e.quantity = 0 ∧ (obLookup t e.price).isSome then none else some e)
        else obLookup t k)
    ∧ obLookup (Market.populate_orderbook t
        [{ price := p, quantity := q1 }, { price := p, quantity := 0 }]) p = none
    ∧ obLookup (Market.populate_orderbook t [{ price := p, quantity := 0 }]) p
        = some { price := p, quantity := 0 } := by
  refine ⟨?_, ?_, ?_⟩
  · by_cases hze : e.quantity = 0 ∧ (obLookup t e.price).isSome
    · simp only [Market.populate_orderbook, if_pos hze]
      rw [obLookup_obDelete]
    · simp only [Market.populate_orderbook, if_neg hze]
      rw [obLookup_obStore]
  · simp [Market.populate_orderbook, hq, obLookup_obStore, obLookup_obDelete]
  · simp [Market.populate_orderbook, hp, obLookup_obStore]

/-- Witness for `c3_merge_rule_amended` at a concrete input. -/
theorem c3_merge_rule_amended_witness :
    (obLookup (Market.populate_orderbook [] [({ price := 3, quantity := 7 } : OrderBookEntry)]) 3
      = if ({ price := 3, quantity := 7 } : OrderBookEntry).price = 3 then
          (if ({ price := 3, quantity := 7 } : OrderBookEntry).quantity = 0
              ∧ (obLookup ([] : OBMap) ({ price := 3, quantity := 7 } : OrderBookEntry).price).isSome
           then none
           else some { price := 3, quantity := 7 })
        else obLookup ([] : OBMap) 3)
    ∧ obLookup (Market.populate_orderbook []
        [{ price := 5, quantity := 2 }, { price := 5, quantity := 0 }]) 5 = none
    ∧ obLookup (Market.populate_orderbook [] [{ price := 5, quantity := 0 }]) 5
        = some { price := 5, quantity := 0 } := by
  have h := c3_merge_rule_amended [] { price := 3, quantity := 7 } 3 5 2
    (by decide) (by decide)
  simpa using h

/-- Claim C4 (confirmed): an incremental order-book update arriving while
the book is uninitialized leaves both side maps (and the whole book, plus
the trader's registry/position and the currency pairs — the diff is not
buffered anywhere) untouched, and issues exactly one snapshot request. -/
theorem c4_snapshot_before_diff (s : MarketState) (m : OrderBookUpdatedMsg)
    (h : s.order_book.bids = none) :
    (Market.handle_order_book_updated_msg s m).order_book = s.order_book
    ∧ (Market.handle_order_book_updated_msg s m).trader = s.trader
    ∧ (Market.handle_order_book_updated_msg s m).currency_pairs = s.currency_pairs
    ∧ (Market.handle_order_book_updated_msg s m).snapshot_requests
        = s.snapshot_requests + 1 := by
  unfold Market.handle_order_book_updated_msg
  rw [h]
  simp

/-- Witness for `c4_snapshot_before_diff`: the base state has no
snapshot yet. -/
theorem c4_snapshot_before_diff_witness :
    (Market.handle_order_book_updated_msg baseState
      { bid_updates := [{ price := 9, quantity := 1 }], ask_updates := [],
        last_trade_price := 1, last_trade_quantity := 2,
        last_trade_timestamp := 3 }).order_book = baseState.order_book
    ∧ (Market.handle_order_book_updated_msg baseState
      { bid_updates := [{ price := 9, quantity := 1 }], ask_updates := [],
        last_trade_price := 1, last_trade_quantity := 2,
        last_trade_timestamp := 3 }).trader = baseState.trader
    ∧ (Market.handle_order_book_updated_msg baseState
      { bid_updates := [{ price := 9, quantity := 1 }], ask_updates := [],
        last_trade_price := 1, last_trade_quantity := 2,
        last_trade_timestamp := 3 }).currency_pairs = baseState.currency_pairs
    ∧ (Market.handle_order_book_updated_msg baseState
      { bid_updates := [{ price := 9, quantity := 1 }], ask_updates := [],
        last_trade_price := 1, last_trade_quantity := 2,
        last_trade_timestamp := 3 }).snapshot_requests
        = baseState.snapshot_requests + 1 :=
  c4_snapshot_before_diff baseState
    { bid_updates := [{ price := 9, quantity := 1 }], ask_updates := [],
      last_trade_price := 1, last_trade_quantity := 2, last_trade_timestamp := 3 }
    (by rfl)

/-- Claim C10 (confirmed): on an incremental book update with an
uninitialized book, the last trade is still overwritten from the message
(the handler applies the same last-trade update twice — also shown
idempotent here) and the last-trade `on_update` is scheduled, while the
book's own `on_update` is scheduled only if it already was; with an
initialized book, both notifications are scheduled. -/
theorem c10_last_trade_frame (s : MarketState) (m : OrderBookUpdatedMsg)
    (p q t : Int) :
    (s.order_book.bids = none →
      (Market.handle_order_book_updated_msg s m).order_book = s.order_book
      ∧ (Market.handle_order_book_updated_msg s m).last_trade
          = some { price := m.last_trade_price, quantity := m.last_trade_quantity,
                   time := m.last_trade_timestamp }
      ∧ Event.last_trade_on_update
          ∈ (Market.handle_order_book_updated_msg s m).scheduled_events
      ∧ (Event.order_book_on_update
            ∈ (Market.handle_order_book_updated_msg s m).scheduled_events
          ↔ Event.order_book_on_update ∈ s.scheduled_events))
    ∧ (s.order_book.bids ≠ none →
      (Market.handle_order_book_updated_msg s m).last_trade
          = some { price := m.last_trade_price, quantity := m.last_trade_quantity,
                   time := m.last_trade_timestamp }
      ∧ Event.last_trade_on_update
          ∈ (Market.handle_order_book_updated_msg s m).scheduled_events
      ∧ Event.order_book_on_update
          ∈ (Market.handle_order_book_updated_msg s m).scheduled_events)
    ∧ Market.handle_last_trade (Market.handle_last_trade s p q t) p q t
        = Market.handle_last_trade s p q t := by
  refine ⟨?_, ?_, handle_last_trade_handle_last_trade s p q t⟩
  · intro h
    unfold Market.handle_order_book_updated_msg
    rw [h]
    refine ⟨by simp, by simp, ?_, ?_⟩
    · rw [mem_handle_last_trade]
      exact Or.inr rfl
    · rw [mem_handle_last_trade, mem_handle_last_trade]
      simp
  · intro h
    obtain ⟨bids, hb⟩ := Option.ne_none_iff_exists'.mp h
    unfold Market.handle_order_book_updated_msg
    rw [hb]
    refine ⟨by simp, ?_, ?_⟩
    · rw [mem_handle_last_trade]
      exact Or.inr rfl
    · rw [mem_handle_last_trade, mem_handle_last_trade]
      refine Or.inl (Or.inl ?_)
      rw [mem_schedule_event]
      exact Or.inr rfl

/-- Witness for `c10_last_trade_frame` at the uninitialized base state. -/
theorem c10_last_trade_frame_witness :
    ((baseState.order_book.bids = none →
      (Market.handle_order_book_updated_msg baseState
        { bid_updates := [], ask_updates := [], last_trade_price := 1,
          last_trade_quantity := 2, last_trade_timestamp := 3 }).order_book
          = baseState.order_book
      ∧ (Market.handle_order_book_updated_msg baseState
        { bid_updates := [], ask_updates := [], last_trade_price := 1,
          last_trade_quantity := 2, last_trade_timestamp := 3 }).last_trade
          = some { price := 1, quantity := 2, time := 3 }
      ∧ Event.last_trade_on_update
          ∈ (Market.handle_order_book_updated_msg baseState
            { bid_updates := [], ask_updates := [], last_trade_price := 1,
              last_trade_quantity := 2, last_trade_timestamp := 3 }).scheduled_events
      ∧ (Event.order_book_on_update
            ∈ (Market.handle_order_book_updated_msg baseState
              { bid_updates := [], ask_updates := [], last_trade_price := 1,
                last_trade_quantity := 2, last_trade_timestamp := 3 }).scheduled_events
          ↔ Event.order_book_on_update ∈ baseState.scheduled_events))
    ∧ (baseState.order_book.bids ≠ none →
      (Market.handle_order_book_updated_msg baseState
        { bid_updates := [], ask_updates := [], last_trade_price := 1,
          last_trade_quantity := 2, last_trade_timestamp := 3 }).last_trade
          = some { price := 1, quantity := 2, time := 3 }
      ∧ Event.last_trade_on_update
          ∈ (Market.handle_order_book_updated_msg baseState
            { bid_updates := [], ask_updates := [], last_trade_price := 1,
              last_trade_quantity := 2, last_trade_timestamp := 3 }).scheduled_events
      ∧ Event.order_book_on_update
          ∈ (Market.handle_order_book_updated_msg baseState
            { bid_updates := [], ask_updates := [], last_trade_price := 1,
              last_trade_quantity := 2, last_trade_timestamp := 3 }).scheduled_events)
    ∧ Market.handle_last_trade (Market.handle_last_trade baseState 1 2 3) 1 2 3
        = Market.handle_last_trade baseState 1 2 3) :=
  c10_last_trade_frame baseState
    { bid_updates := [], ask_updates := [], last_trade_price := 1,
      last_trade_quantity := 2, last_trade_timestamp := 3 } 1 2 3

/-- Claim C8 (confirmed): a callback returning `None` completes silently
(no task spawned), a coroutine is handed to the task scheduler (one task
spawned), and any other return shape makes `emit_event` raise, so the
flush loop — and with it the current message's processing — succeeds
exactly when every pending callback returns a supported shape. -/
theorem c8_emit_event_contract (env : Event → EventResult) (e : Event)
    (evs : List Event) :
    (Market.emit_event env e = Except.ok 0 ↔ env e = EventResult.nothing)
    ∧ (Market.emit_event env e = Except.ok 1 ↔ env e = EventResult.coroutine)
    ∧ (isOkE (Market.run_events env evs [] 0)
        = evs.all (fun x => (env x).supported)) := by
  refine ⟨?_, ?_, isOkE_run_events env evs [] 0⟩ <;>
    cases h : env e <;> simp [Market.emit_event, h]

/-! ### Characterizations of the `handle_order` building blocks -/

/-- The value `determine_status` assigns to the order's status field, as
a function of the message, the forced status, the seen-before flag and
the order's stored status and quantity. -/
def statusChoice (message : OrderMsg) (forced : Option OrderStatus)
    (have_seen : Bool) (oldStatus : Option OrderStatus) (oldQty : Int) :
    Option OrderStatus :=
  match message.status with
  | some st => some st
  | none =>
    match forced with
    | some st => some st
    | none =>
      if have_seen then oldStatus
      else if message.orig_quantity ≠ oldQty then some OrderStatus.PART_FILLED
      else some OrderStatus.ACCEPTED

lemma determine_status_eq (m : OrderMsg) (f : Option OrderStatus) (b : Bool)
    (o : Order) :
    Market.determine_status m f b o
      = { o with status := statusChoice m f b o.status o.quantity } := by
  cases hms : m.status <;> cases hf : f <;>
    (simp only [Market.determine_status, statusChoice, hms, hf]
     try first
       | rfl
       | (split_ifs <;> rfl))

/-- The value `attach_error` leaves in the order's error-code field. -/
def errorChoice (outer : Option Envelope) (oldEC : Option Int) : Option Int :=
  match outer with
  | some out => if out.error_code ≠ 0 then some out.error_code else oldEC
  | none => oldEC

lemma attach_error_eq (outer : Option Envelope) (o : Order) :
    Market.attach_error outer o
      = { o with error_code := errorChoice outer o.error_code } := by
  cases outer <;>
    (simp only [Market.attach_error, errorChoice]
     try first
       | rfl
       | (split_ifs <;> rfl))

/-- Steps 4 and 5 of the reconciler combined: the reconciled order is the
looked-up (or constructed) order with exactly its status and error-code
fields recomputed. -/
lemma attach_determine_eq (m : OrderMsg) (f : Option OrderStatus) (b : Bool)
    (outer : Option Envelope) (o : Order) :
    Market.attach_error outer (Market.determine_status m f b o)
      = { o with status := statusChoice m f b o.status o.quantity,
                 error_code := errorChoice outer o.error_code } := by
  rw [determine_status_eq, attach_error_eq]

/-! ### Lemmas about registry lookup -/

lemma lookupOrder_mem {l : List (Nat × Order)} {id : Nat} {o : Order}
    (h : lookupOrder l id = some o) : (id, o) ∈ l := by
  induction l with
  | nil => simp [lookupOrder] at h
  | cons q rest ih =>
    by_cases hq : q.1 = id
    · subst hq
      rw [lookupOrder, if_pos rfl] at h
      obtain rfl : q.2 = o := Option.some.inj h
      exact List.mem_cons_self _ _
    · rw [lookupOrder, if_neg hq] at h
      exact List.mem_cons_of_mem _ (ih h)

lemma lookupOrder_none_not_mem {l : List (Nat × Order)} {id : Nat}
    (h : lookupOrder l id = none) : ∀ p ∈ l, p.1 ≠ id := by
  induction l with
  | nil => intro p hp; simp at hp
  | cons q rest ih =>
    intro p hp
    by_cases hq : q.1 = id
    · rw [lookupOrder, if_pos hq] at h
      exact absurd h (by simp)
    · rw [lookupOrder, if_neg hq] at h
      rcases List.mem_cons.mp hp with rfl | hmem
      · exact hq
      · exact ih h p hmem

lemma look_up_add_self (os : Orders) (o : Order) :
    (os.add o).look_up_by_id o.id = some o := by
  simp [Orders.add, Orders.look_up_by_id, lookupOrder]

lemma look_up_update_self (os : Orders) (id : Nat) (o : Order) :
    (os.updateEntry id o).look_up_by_id id
      = (os.look_up_by_id id).map (fun _ => o) := by
  unfold Orders.updateEntry Orders.look_up_by_id
  induction os.entries with
  | nil => simp [lookupOrder]
  | cons q rest ih =>
    by_cases hq : q.1 = id
    · simp [lookupOrder, hq]
    · simp [lookupOrder, hq, ih]

lemma look_up_remove_self (os : Orders) (o : Order) :
    (os.remove o).look_up_by_id o.id = none := by
  unfold Orders.remove Orders.look_up_by_id
  induction os.entries with
  | nil => simp [lookupOrder]
  | cons q rest ih =>
    by_cases hq : q.1 = o.id
    · simpa [List.filter_cons, hq] using ih
    · simpa [List.filter_cons, hq, lookupOrder] using ih

/-! ### The registry well-formedness invariant -/

/-- Propositional form of `Orders.wf`: every entry is keyed by its own
order's id and every stored order has a live status. -/
def Orders.WFP (os : Orders) : Prop :=
  ∀ p ∈ os.entries, p.1 = p.2.id ∧ Market.statusInKeep p.2.status = true

lemma wf_iff_WFP (os : Orders) : os.wf = true ↔ os.WFP := by
  unfold Orders.wf Orders.keysOk Orders.allLive Orders.WFP
  rw [Bool.and_eq_true, List.all_eq_true, List.all_eq_true]
  constructor
  · rintro ⟨h1, h2⟩ p hp
    exact ⟨by simpa using h1 p hp, h2 p hp⟩
  · intro h
    exact ⟨fun p hp => by simpa using (h p hp).1, fun p hp => (h p hp).2⟩

/-- The order `handle_order` builds for a previously unseen id: freshly
constructed from the message, with status and error code computed by
steps 4 and 5. -/
def reconciledOrderNew (msg : OrderMsg) (outer : Option Envelope)
    (forced : Option OrderStatus) (id : Nat) : Order :=
  { Market.create_order_from_message msg id with
    status := statusChoice msg forced false none msg.quantity
    error_code := errorChoice outer none }

/-- The order `handle_order` produces when the id was found in the
registry: the stored order, with status and error code recomputed by
steps 4 and 5. -/
def reconciledOrderKnown (msg : OrderMsg) (outer : Option Envelope)
    (forced : Option OrderStatus) (o : Order) : Order :=
  { o with status := statusChoice msg forced true o.status o.quantity
           error_code := errorChoice outer o.error_code }

/-- Shape of `handle_order_core` on a previously unseen id. -/
lemma handle_order_core_none (os : Orders) (msg : OrderMsg)
    (outer : Option Envelope) (forced : Option OrderStatus) (id : Nat)
    (hl : os.look_up_by_id id = none) :
    Market.handle_order_core os msg outer forced id =
      (if Market.statusInKeep (reconciledOrderNew msg outer forced id).status then
        { orders := os.add (reconciledOrderNew msg outer forced id)
          order := reconciledOrderNew msg outer forced id
          have_seen := false }
      else
        { orders := os
          order := reconciledOrderNew msg outer forced id
          have_seen := false }) := by
  simp only [Market.handle_order_core, hl, attach_determine_eq,
    Option.isSome_none, Bool.false_and, Bool.not_false, Bool.true_and,
    Bool.false_eq_true, if_false, reconciledOrderNew,
    Market.create_order_from_message]
  cases hk : Market.statusInKeep (statusChoice msg forced false none msg.quantity) <;>
    simp [hk]

/-- Shape of `handle_order_core` on a known id. -/
lemma handle_order_core_some (os : Orders) (msg : OrderMsg)
    (outer : Option Envelope) (forced : Option OrderStatus) (id : Nat)
    (o : Order) (hl : os.look_up_by_id id = some o) :
    Market.handle_order_core os msg outer forced id =
      (if Market.statusInKeep (reconciledOrderKnown msg outer forced o).status then
        { orders := os.updateEntry id (reconciledOrderKnown msg outer forced o)
          order := reconciledOrderKnown msg outer forced o
          have_seen := true }
      else
        { orders := (os.updateEntry id (reconciledOrderKnown msg outer forced o)).remove
            (reconciledOrderKnown msg outer forced o)
          order := reconciledOrderKnown msg outer forced o
          have_seen := true }) := by
  simp only [Market.handle_order_core, hl, attach_determine_eq,
    Option.isSome_some, Bool.true_and, Bool.not_eq_eq_eq_not, Bool.not_true,
    reconciledOrderKnown]
  cases hk : Market.statusInKeep (statusChoice msg forced true o.status o.quantity) <;>
    simp [hk]

/-- Central case analysis of the reconciler: starting from a well-formed
registry, one `handle_order_core` call preserves well-formedness, and the
reconciled order is present in the resulting registry exactly when its
status is in the live set; moreover its id is the resolved id and the
seen-before flag is the lookup result. -/
lemma handle_order_core_props (os : Orders) (msg : OrderMsg)
    (outer : Option Envelope) (forced : Option OrderStatus) (id : Nat)
    (hwf : os.WFP) :
    (Market.handle_order_core os msg outer forced id).orders.WFP
    ∧ (((Market.handle_order_core os msg outer forced id).orders.look_up_by_id
          (Market.handle_order_core os msg outer forced id).order.id).isSome
        = Market.statusInKeep
            (Market.handle_order_core os msg outer forced id).order.status)
    ∧ (Market.handle_order_core os msg outer forced id).order.id = id
    ∧ (Market.handle_order_core os msg outer forced id).have_seen
        = (os.look_up_by_id id).isSome := by
  cases hl : os.look_up_by_id id with
  | none =>
    rw [handle_order_core_none os msg outer forced id hl]
    set w := reconciledOrderNew msg outer forced id with hw
    cases hk : Market.statusInKeep w.status
    · rw [if_neg (by simp)]
      refine ⟨hwf, ?_, rfl, ?_⟩
      · show (os.look_up_by_id id).isSome = Market.statusInKeep w.status
        rw [hl, hk]
        rfl
      · rfl
    · rw [if_pos rfl]
      refine ⟨?_, ?_, rfl, ?_⟩
      · intro p hp
        rcases List.mem_cons.mp hp with rfl | hmem
        · exact ⟨rfl, hk⟩
        · exact hwf p hmem
      · show ((os.add w).look_up_by_id w.id).isSome = Market.statusInKeep w.status
        rw [look_up_add_self, hk]
        rfl
      · rfl
  | some o =>
    have hmem : (id, o) ∈ os.entries := lookupOrder_mem hl
    obtain ⟨hid, hlive⟩ := hwf (id, o) hmem
    simp only at hid hlive
    rw [handle_order_core_some os msg outer forced id o hl]
    set w := reconciledOrderKnown msg outer forced o with hw
    have hwid : w.id = o.id := rfl
    cases hk : Market.statusInKeep w.status
    · rw [if_neg (by simp)]
      refine ⟨?_, ?_, ?_, ?_⟩
      · intro p hp
        have hp1 := List.mem_filter.mp hp
        obtain ⟨q, hq, hpq⟩ := List.mem_map.mp hp1.1
        have hne : p.1 ≠ w.id := by simpa using hp1.2
        by_cases hq1 : q.1 = id
        · exfalso
          apply hne
          rw [← hpq, if_pos hq1, hwid, hid]
        · rw [if_neg hq1] at hpq
          exact hwf p (hpq ▸ hq)
      · show ((((os.updateEntry id w).remove w).look_up_by_id w.id).isSome
            = Market.statusInKeep w.status)
        rw [look_up_remove_self, hk]
        rfl
      · show o.id = id
        exact hid.symm
      · rfl
    · rw [if_pos rfl]
      refine ⟨?_, ?_, ?_, ?_⟩
      · intro p hp
        obtain ⟨q, hq, hpq⟩ := List.mem_map.mp hp
        by_cases hq1 : q.1 = id
        · rw [if_pos hq1] at hpq
          refine hpq ▸ ⟨?_, hk⟩
          rw [hwid, hid]
        · rw [if_neg hq1] at hpq
          exact hwf p (hpq ▸ hq)
      · show (((os.updateEntry id w).look_up_by_id o.id).isSome
            = Market.statusInKeep w.status)
        rw [← hid, look_up_update_self, hl, hk]
        rfl
      · show o.id = id
        exact hid.symm
      · rfl

/-- `handle_order` succeeds exactly when the id resolves, in which case
it returns the `handle_order_core` result. -/
lemma handle_order_ok {os : Orders} {msg : OrderMsg} {outer : Option Envelope}
    {forced : Option OrderStatus} {r : Market.HandleOrderResult}
    (h : Market.handle_order os msg outer forced = Except.ok r) :
    ∃ id, Market.resolve_order_id msg outer = Except.ok id
      ∧ r = Market.handle_order_core os msg outer forced id := by
  unfold Market.handle_order at h
  cases hres : Market.resolve_order_id msg outer with
  | error e => rw [hres] at h; cases h
  | ok id =>
    rw [hres] at h
    exact ⟨id, rfl, (Except.ok.inj h).symm⟩

/-- Invariant preservation through one successful `handle_order` call. -/
lemma handle_order_ok_inv {os : Orders} {msg : OrderMsg}
    {outer : Option Envelope} {forced : Option OrderStatus}
    {r : Market.HandleOrderResult} (hwf : os.WFP)
    (h : Market.handle_order os msg outer forced = Except.ok r) :
    r.orders.WFP
    ∧ ((r.orders.look_up_by_id r.order.id).isSome
        = Market.statusInKeep r.order.status) := by
  obtain ⟨id, _, rfl⟩ := handle_order_ok h
  obtain ⟨h1, h2, _, _⟩ := handle_order_core_props os msg outer forced id hwf
  exact ⟨h1, h2⟩

/-- The invariant is preserved over any sequence of reconciliations. -/
lemma runReconciliations_WFP (inputs : List ReconInput) :
    ∀ os : Orders, os.WFP → (runReconciliations inputs os).WFP := by
  induction inputs with
  | nil => intro os h; exact h
  | cons i rest ih =>
    intro os h
    unfold runReconciliations
    cases hcall : Market.handle_order os i.1 i.2.1 i.2.2 with
    | error e => exact ih os h
    | ok r => exact ih r.orders (handle_order_ok_inv h hcall).1

lemma empty_WFP : Orders.empty.WFP := by
  intro p hp
  simp [Orders.empty] at hp

/-- Claim C2 (confirmed): over every sequence of reconciliations starting
from the empty registry, the registry keeps only orders whose status is in
the live set ACCEPTED/PART_FILLED (so any order with another status is
absent), and for the order reconciled by any further `handle_order` call
membership in the resulting registry is exactly equivalent to its status
being in the live set. -/
theorem c2_registry_invariant (inputs : List ReconInput) (msg : OrderMsg)
    (outer : Option Envelope) (forced : Option OrderStatus)
    (r : Market.HandleOrderResult)
    (h : Market.handle_order (runReconciliations inputs Orders.empty)
        msg outer forced = Except.ok r) :
    (runReconciliations inputs Orders.empty).wf = true
    ∧ r.orders.wf = true
    ∧ ((r.orders.look_up_by_id r.order.id).isSome
        = Market.statusInKeep r.order.status) := by
  have hrun : (runReconciliations inputs Orders.empty).WFP :=
    runReconciliations_WFP inputs Orders.empty empty_WFP
  obtain ⟨h1, h2⟩ := handle_order_ok_inv hrun h
  exact ⟨(wf_iff_WFP _).mpr hrun, (wf_iff_WFP _).mpr h1, h2⟩

/-! ### Claim C7: the status priority rule -/

/-- The status-determination rule exactly as the specification words it
(spec §4.2 step 4, claim C7): an explicit status field on the message
wins; otherwise the caller-supplied forced status; otherwise — only for
an order not already known — infer ACCEPTED when the message's original
quantity equals the order's stored quantity (which for a just-constructed
order is the message's quantity) and PART_FILLED otherwise; for a known
order with neither, the stored status is left unchanged. -/
def specStatusPriority (registry : Orders) (message : OrderMsg)
    (forced : Option OrderStatus) (id : Nat) : Option OrderStatus :=
  match message.status with
  | some st => some st
  | none =>
    match forced with
    | some st => some st
    | none =>
      match registry.look_up_by_id id with
      | some stored => stored.status
      | none =>
        some (if message.orig_quantity = message.quantity then OrderStatus.ACCEPTED
              else OrderStatus.PART_FILLED)

/-- Claim C7 (confirmed): the status of the reconciled order equals the
spec-side priority rule, for every registry, message, envelope, forced
status and resolved id. -/
theorem c7_status_priority (os : Orders) (msg : OrderMsg)
    (outer : Option Envelope) (forced : Option OrderStatus) (id : Nat) :
    (Market.handle_order_core os msg outer forced id).order.status
      = specStatusPriority os msg forced id := by
  cases hl : os.look_up_by_id id with
  | none =>
    rw [handle_order_core_none os msg outer forced id hl]
    split
    all_goals
      show statusChoice msg forced false none msg.quantity
        = specStatusPriority os msg forced id
      cases hms : msg.status <;> cases hf : forced <;>
        simp only [statusChoice, specStatusPriority, hms, hf, hl,
          Bool.false_eq_true, if_false]
      by_cases hq : msg.orig_quantity = msg.quantity <;> simp [hq]
  | some o =>
    rw [handle_order_core_some os msg outer forced id o hl]
    split
    all_goals
      show statusChoice msg forced true o.status o.quantity
        = specStatusPriority os msg forced id
      cases hms : msg.status <;> cases hf : forced <;>
        simp [statusChoice, specStatusPriority, hms, hf, hl]

/-! ### Claim C6: idempotent re-delivery -/

lemma statusChoice_true_stable (m : OrderMsg) (f : Option OrderStatus)
    (b : Bool) (old : Option OrderStatus) (q q2 : Int) :
    statusChoice m f true (statusChoice m f b old q) q2
      = statusChoice m f b old q := by
  cases hms : m.status <;> cases hf : f <;> simp [statusChoice, hms, hf]

lemma errorChoice_idem (outer : Option Envelope) (old : Option Int) :
    errorChoice outer (errorChoice outer old) = errorChoice outer old := by
  cases outer with
  | none => rfl
  | some out =>
    by_cases h : out.error_code ≠ 0 <;> simp [errorChoice, h]

/-- Reconciling an order that itself came out of the same reconciliation
is a fixed point: status and error recomputation do not change it. -/
lemma reconciledKnown_new_stable (msg : OrderMsg) (outer : Option Envelope)
    (forced : Option OrderStatus) (id : Nat) :
    reconciledOrderKnown msg outer forced (reconciledOrderNew msg outer forced id)
      = reconciledOrderNew msg outer forced id := by
  unfold reconciledOrderKnown reconciledOrderNew Market.create_order_from_message
  rw [statusChoice_true_stable, errorChoice_idem]

lemma reconciledKnown_known_stable (msg : OrderMsg) (outer : Option Envelope)
    (forced : Option OrderStatus) (o : Order) :
    reconciledOrderKnown msg outer forced (reconciledOrderKnown msg outer forced o)
      = reconciledOrderKnown msg outer forced o := by
  unfold reconciledOrderKnown
  rw [statusChoice_true_stable, errorChoice_idem]

lemma map_eq_self_of {α : Type} {l : List α} {f : α → α}
    (h : ∀ x ∈ l, f x = x) : l.map f = l :=
  (List.map_congr_left h).trans (List.map_id l)

/-- Re-storing the freshly added order under its own key changes
nothing. -/
lemma add_updateEntry_self (os : Orders) (w : Order) (id : Nat)
    (hl : os.look_up_by_id id = none) (hwid : w.id = id) :
    (os.add w).updateEntry id w = os.add w := by
  have hent : ((os.add w).entries.map
      (fun p => if p.1 = id then (id, w) else p)) = (os.add w).entries := by
    unfold Orders.add
    simp only [List.map_cons]
    rw [if_pos hwid]
    rw [map_eq_self_of (fun p hp => if_neg (lookupOrder_none_not_mem hl p hp))]
    rw [← hwid]
  unfold Orders.updateEntry
  rw [hent]

/-- Re-storing the same order twice under the same key changes nothing. -/
lemma updateEntry_idem (os : Orders) (id : Nat) (w : Order) :
    (os.updateEntry id w).updateEntry id w = os.updateEntry id w := by
  unfold Orders.updateEntry
  simp only [List.map_map]
  congr 1
  apply List.map_congr_left
  intro p _
  by_cases hp : p.1 = id <;> simp [Function.comp, hp]

/-- Re-delivering the same message to `handle_order_core` leaves the
registry exactly as after the first call and returns an order with the
same id and status; and except when the first call removed a known order,
the returned order is identical too. -/
lemma handle_order_core_idem (os : Orders) (msg : OrderMsg)
    (outer : Option Envelope) (forced : Option OrderStatus) (id : Nat)
    (hwf : os.WFP) :
    (Market.handle_order_core (Market.handle_order_core os msg outer forced id).orders
        msg outer forced id).orders
      = (Market.handle_order_core os msg outer forced id).orders
    ∧ (Market.handle_order_core (Market.handle_order_core os msg outer forced id).orders
        msg outer forced id).order.id
      = (Market.handle_order_core os msg outer forced id).order.id
    ∧ (Market.handle_order_core (Market.handle_order_core os msg outer forced id).orders
        msg outer forced id).order.status
      = (Market.handle_order_core os msg outer forced id).order.status
    ∧ ((Market.statusInKeep (Market.handle_order_core os msg outer forced id).order.status
          || !(Market.handle_order_core os msg outer forced id).have_seen) = true →
        (Market.handle_order_core (Market.handle_order_core os msg outer forced id).orders
            msg outer forced id).order
          = (Market.handle_order_core os msg outer forced id).order) := by
  cases hl : os.look_up_by_id id with
  | none =>
    cases hk : Market.statusInKeep (reconciledOrderNew msg outer forced id).status
    · have e1 : Market.handle_order_core os msg outer forced id
          = { orders := os, order := reconciledOrderNew msg outer forced id,
              have_seen := false } := by
        rw [handle_order_core_none os msg outer forced id hl, hk, if_neg (by simp)]
      have e2 : Market.handle_order_core
          ({ orders := os, order := reconciledOrderNew msg outer forced id,
             have_seen := false } : Market.HandleOrderResult).orders
            msg outer forced id
          = { orders := os, order := reconciledOrderNew msg outer forced id,
              have_seen := false } := e1
      rw [e1, e2]
      exact ⟨rfl, rfl, rfl, fun _ => rfl⟩
    · have e1 : Market.handle_order_core os msg outer forced id
          = { orders := os.add (reconciledOrderNew msg outer forced id),
              order := reconciledOrderNew msg outer forced id,
              have_seen := false } := by
        rw [handle_order_core_none os msg outer forced id hl, hk, if_pos rfl]
      have hladd : (os.add (reconciledOrderNew msg outer forced id)).look_up_by_id id
          = some (reconciledOrderNew msg outer forced id) :=
        look_up_add_self os (reconciledOrderNew msg outer forced id)
      have e2 : Market.handle_order_core
          (os.add (reconciledOrderNew msg outer forced id)) msg outer forced id
          = { orders := (os.add (reconciledOrderNew msg outer forced id)).updateEntry id
                (reconciledOrderNew msg outer forced id),
              order := reconciledOrderNew msg outer forced id,
              have_seen := true } := by
        rw [handle_order_core_some (os.add (reconciledOrderNew msg outer forced id))
          msg outer forced id (reconciledOrderNew msg outer forced id) hladd,
          reconciledKnown_new_stable, hk, if_pos rfl]
      have e3 : (os.add (reconciledOrderNew msg outer forced id)).updateEntry id
            (reconciledOrderNew msg outer forced id)
          = os.add (reconciledOrderNew msg outer forced id) :=
        add_updateEntry_self os (reconciledOrderNew msg outer forced id) id hl rfl
      rw [e1]
      have e2' : Market.handle_order_core
          ({ orders := os.add (reconciledOrderNew msg outer forced id),
             order := reconciledOrderNew msg outer forced id,
             have_seen := false } : Market.HandleOrderResult).orders
            msg outer forced id
          = { orders := (os.add (reconciledOrderNew msg outer forced id)).updateEntry id
                (reconciledOrderNew msg outer forced id),
              order := reconciledOrderNew msg outer forced id,
              have_seen := true } := e2
      rw [e2', e3]
      exact ⟨rfl, rfl, rfl, fun _ => rfl⟩
  | some o =>
    have hmem : (id, o) ∈ os.entries := lookupOrder_mem hl
    obtain ⟨hid, hlive⟩ := hwf (id, o) hmem
    simp only at hid hlive
    cases hk : Market.statusInKeep (reconciledOrderKnown msg outer forced o).status
    · -- first delivery removes the order from the registry
      have e1 : Market.handle_order_core os msg outer forced id
          = { orders := (os.updateEntry id (reconciledOrderKnown msg outer forced o)).remove
                (reconciledOrderKnown msg outer forced o),
              order := reconciledOrderKnown msg outer forced o,
              have_seen := true } := by
        rw [handle_order_core_some os msg outer forced id o hl, hk, if_neg (by simp)]
      -- the new status cannot have come from the stored order (that one
      -- was live), so it was explicit or forced — hence identical on
      -- the second, freshly constructed order
      have hstat : (reconciledOrderNew msg outer forced id).status
          = (reconciledOrderKnown msg outer forced o).status := by
        cases hms : msg.status with
        | some st =>
          simp [reconciledOrderNew, reconciledOrderKnown,
            Market.create_order_from_message, statusChoice, hms]
        | none =>
          cases hf : forced with
          | some st =>
            simp [reconciledOrderNew, reconciledOrderKnown,
              Market.create_order_from_message, statusChoice, hms, hf]
          | none =>
            exfalso
            have : (reconciledOrderKnown msg outer forced o).status = o.status := by
              simp [reconciledOrderKnown, statusChoice, hms, hf]
            rw [this] at hk
            rw [hlive] at hk
            cases hk
      have hkn : Market.statusInKeep (reconciledOrderNew msg outer forced id).status
          = false := by rw [hstat, hk]
      have h2lookup : ((os.updateEntry id (reconciledOrderKnown msg outer forced o)).remove
            (reconciledOrderKnown msg outer forced o)).look_up_by_id id = none := by
        rw [hid]
        exact look_up_remove_self _ _
      have e2 : Market.handle_order_core
          ((os.updateEntry id (reconciledOrderKnown msg outer forced o)).remove
            (reconciledOrderKnown msg outer forced o)) msg outer forced id
          = { orders := (os.updateEntry id (reconciledOrderKnown msg outer forced o)).remove
                (reconciledOrderKnown msg outer forced o),
              order := reconciledOrderNew msg outer forced id,
              have_seen := false } := by
        rw [handle_order_core_none _ msg outer forced id h2lookup, hkn, if_neg (by simp)]
      rw [e1]
      have e2' : Market.handle_order_core
          ({ orders := (os.updateEntry id (reconciledOrderKnown msg outer forced o)).remove
                (reconciledOrderKnown msg outer forced o),
             order := reconciledOrderKnown msg outer forced o,
             have_seen := true } : Market.HandleOrderResult).orders
            msg outer forced id
          = { orders := (os.updateEntry id (reconciledOrderKnown msg outer forced o)).remove
                (reconciledOrderKnown msg outer forced o),
              order := reconciledOrderNew msg outer forced id,
              have_seen := false } := e2
      rw [e2']
      refine ⟨rfl, ?_, ?_, ?_⟩
      · show id = o.id
        exact hid
      · exact hstat
      · intro h
        rw [hk] at h
        simp at h
    · have e1 : Market.handle_order_core os msg outer forced id
          = { orders := os.updateEntry id (reconciledOrderKnown msg outer forced o),
              order := reconciledOrderKnown msg outer forced o,
              have_seen := true } := by
        rw [handle_order_core_some os msg outer forced id o hl, hk, if_pos rfl]
      have h2lookup : (os.updateEntry id (reconciledOrderKnown msg outer forced o)).look_up_by_id id
          = some (reconciledOrderKnown msg outer forced o) := by
        rw [look_up_update_self, hl]
        rfl
      have e2 : Market.handle_order_core
          (os.updateEntry id (reconciledOrderKnown msg outer forced o)) msg outer forced id
          = { orders := (os.updateEntry id (reconciledOrderKnown msg outer forced o)).updateEntry id
                (reconciledOrderKnown msg outer forced o),
              order := reconciledOrderKnown msg outer forced o,
              have_seen := true } := by
        rw [handle_order_core_some (os.updateEntry id (reconciledOrderKnown msg outer forced o))
          msg outer forced id (reconciledOrderKnown msg outer forced o) h2lookup,
          reconciledKnown_known_stable, hk, if_pos rfl]
      rw [e1]
      have e2' : Market.handle_order_core
          ({ orders := os.updateEntry id (reconciledOrderKnown msg outer forced o),
             order := reconciledOrderKnown msg outer forced o,
             have_seen := true } : Market.HandleOrderResult).orders
            msg outer forced id
          = { orders := (os.updateEntry id (reconciledOrderKnown msg outer forced o)).updateEntry id
                (reconciledOrderKnown msg outer forced o),
              order := reconciledOrderKnown msg outer forced o,
              have_seen := true } := e2
      rw [e2', updateEntry_idem]
      exact ⟨rfl, rfl, rfl, fun _ => rfl⟩

/-- Claim C6, counterexample: a known order (id 7, quantity 10, ACCEPTED)
receives an order-status message with explicit status FILLED whose
quantity field is 4.  The first reconciliation returns the stored order
(quantity 10) and removes it; re-delivering the identical message
constructs a fresh order from the message's fields, returning quantity 4
— a different final order state. -/
theorem c6_redelivery_counterexample :
    ((resultOrder (Market.handle_order ordersWith7 filledMsg7 none none)).map
        Order.quantity = some 10)
    ∧ (((resultOrders (Market.handle_order ordersWith7 filledMsg7 none none)).bind
        (fun os => (resultOrder (Market.handle_order os filledMsg7 none none)).map
          Order.quantity)) = some 4) := by
  constructor <;> rfl

/-- Claim C6, amended: re-delivering the identical order-status message
leaves the registry exactly as after the first reconciliation (no
duplicate insertion, no second removal) and yields an order with the same
id and status; the full order state is identical as well except when the
first delivery removed a previously known order, in which case the second
call returns a freshly constructed order carrying the message's fields. -/
theorem c6_idempotent_amended (os : Orders) (msg : OrderMsg)
    (outer : Option Envelope) (forced : Option OrderStatus)
    (r1 : Market.HandleOrderResult) (hwf : os.wf = true)
    (h1 : Market.handle_order os msg outer forced = Except.ok r1) :
    resultOrders (Market.handle_order r1.orders msg outer forced) = some r1.orders
    ∧ (resultOrder (Market.handle_order r1.orders msg outer forced)).map Order.id
        = some r1.order.id
    ∧ (resultOrder (Market.handle_order r1.orders msg outer forced)).map Order.status
        = some r1.order.status
    ∧ ((Market.statusInKeep r1.order.status || !r1.have_seen) = true →
        resultOrder (Market.handle_order r1.orders msg outer forced) = some r1.order) := by
  obtain ⟨id, hres, rfl⟩ := handle_order_ok h1
  have hcall2 : Market.handle_order
      (Market.handle_order_core os msg outer forced id).orders msg outer forced
      = Except.ok (Market.handle_order_core
          (Market.handle_order_core os msg outer forced id).orders msg outer forced id) := by
    unfold Market.handle_order
    rw [hres]
  obtain ⟨ho, hi, hs, hfull⟩ :=
    handle_order_core_idem os msg outer forced id ((wf_iff_WFP os).mp hwf)
  rw [hcall2]
  refine ⟨?_, ?_, ?_, ?_⟩
  · simp [resultOrders, ho]
  · simp [resultOrder, hi]
  · simp [resultOrder, hs]
  · intro h
    simp [resultOrder, hfull h]

/-- Message used in the C2 witness: a fresh order report with an
explicit ACCEPTED status. -/
def c2WitnessMsg : OrderMsg :=
  { zeroOrderMsg with orig_client_id := some 7, status := some OrderStatus.ACCEPTED }

/-- Witness for `c2_registry_invariant`: the empty reconciliation
sequence followed by one accepted order. -/
theorem c2_registry_invariant_witness :
    (runReconciliations [] Orders.empty).wf = true
    ∧ (Market.handle_order_core Orders.empty c2WitnessMsg none none 7).orders.wf = true
    ∧ (((Market.handle_order_core Orders.empty c2WitnessMsg none none 7).orders.look_up_by_id
          (Market.handle_order_core Orders.empty c2WitnessMsg none none 7).order.id).isSome
        = Market.statusInKeep
            (Market.handle_order_core Orders.empty c2WitnessMsg none none 7).order.status) :=
  c2_registry_invariant [] c2WitnessMsg none none _ rfl

/-- Witness for `c6_idempotent_amended` at the counterexample's input. -/
theorem c6_idempotent_amended_witness :
    resultOrders (Market.handle_order
        (Market.handle_order_core ordersWith7 filledMsg7 none none 7).orders
        filledMsg7 none none)
      = some (Market.handle_order_core ordersWith7 filledMsg7 none none 7).orders
    ∧ (resultOrder (Market.handle_order
        (Market.handle_order_core ordersWith7 filledMsg7 none none 7).orders
        filledMsg7 none none)).map Order.id
      = some (Market.handle_order_core ordersWith7 filledMsg7 none none 7).order.id
    ∧ (resultOrder (Market.handle_order
        (Market.handle_order_core ordersWith7 filledMsg7 none none 7).orders
        filledMsg7 none none)).map Order.status
      = some (Market.handle_order_core ordersWith7 filledMsg7 none none 7).order.status
    ∧ ((Market.statusInKeep
          (Market.handle_order_core ordersWith7 filledMsg7 none none 7).order.status
        || !(Market.handle_order_core ordersWith7 filledMsg7 none none 7).have_seen) = true →
        resultOrder (Market.handle_order
            (Market.handle_order_core ordersWith7 filledMsg7 none none 7).orders
            filledMsg7 none none)
          = some (Market.handle_order_core ordersWith7 filledMsg7 none none 7).order) :=
  c6_idempotent_amended ordersWith7 filledMsg7 none none _ (by decide) rfl

/-! ### Claim C9: trader-status orders carry no envelope -/

/-- The error code already stored for the given id, or none when the id
is unknown — what "no envelope error attached" leaves on the order. -/
def storedError (os : Orders) (cid : Nat) : Option Int :=
  match os.look_up_by_id cid with
  | some o => o.error_code
  | none => none

lemma handle_trader_status_orders_err (oms : List OrderMsg) :
    ∀ s : MarketState, (∃ om ∈ oms, om.orig_client_id = none) →
      isOkE (Market.handle_trader_status_orders s oms) = false := by
  induction oms with
  | nil =>
    intro s h
    obtain ⟨om, hm, _⟩ := h
    simp at hm
  | cons om' rest ih =>
    intro s h
    obtain ⟨om, hm, hnone⟩ := h
    cases hcid : om'.orig_client_id with
    | none =>
      have herr : Market.handle_order s.trader.orders om' none none
          = Except.error "AttributeError: NoneType object has no attribute client_id" := by
        unfold Market.handle_order Market.resolve_order_id
        rw [hcid]
      unfold Market.handle_trader_status_orders
      rw [herr]
      rfl
    | some cid =>
      rcases List.mem_cons.mp hm with rfl | hmem
      · rw [hcid] at hnone; cases hnone
      · have hho : Market.handle_order s.trader.orders om' none none
            = Except.ok (Market.handle_order_core s.trader.orders om' none none cid) := by
          unfold Market.handle_order Market.resolve_order_id
          rw [hcid]
        have hstep : Market.handle_trader_status_orders s (om' :: rest)
            = Market.handle_trader_status_orders
              (Market.schedule_event
                (Market.setOrders s
                  (Market.handle_order_core s.trader.orders om' none none cid).orders)
                (Event.order_on_update
                  (Market.handle_order_core s.trader.orders om' none none cid).order.id))
              rest := by
          simp only [Market.handle_trader_status_orders]
          rw [hho]
        rw [hstep]
        exact ih _ ⟨om, hmem, hnone⟩

/-- Claim C9 (confirmed): on the trader-status path `handle_order` runs
with no outer envelope; for an embedded record with a nonempty inner
client id the resolved identity is that inner id (the envelope fallback
is never taken) and the order's error code is exactly whatever was
already stored (none for a fresh order) — no envelope error code is ever
attached; and an embedded record with an empty inner client id makes the
identity resolution dereference the absent envelope, failing the call
and with it the whole trader-status message's processing. -/
theorem c9_trader_status_no_envelope (os : Orders) (om om2 : OrderMsg)
    (cid : Nat) (s : MarketState) (m : TraderStatusMsg)
    (hwf : os.wf = true)
    (hcid : om.orig_client_id = some cid)
    (hnone : om2.orig_client_id = none)
    (hmem : om2 ∈ m.orders) :
    ((resultOrder (Market.handle_order os om none none)).map Order.id = some cid)
    ∧ ((resultOrder (Market.handle_order os om none none)).map Order.error_code
        = some (storedError os cid))
    ∧ (Market.handle_order os om2 none none
        = Except.error "AttributeError: NoneType object has no attribute client_id")
    ∧ (isOkE (Market.handle_trader_status_msg s m) = false) := by
  have hho : Market.handle_order os om none none
      = Except.ok (Market.handle_order_core os om none none cid) := by
    unfold Market.handle_order Market.resolve_order_id
    rw [hcid]
  refine ⟨?_, ?_, ?_, ?_⟩
  · rw [hho]
    obtain ⟨_, _, hid, _⟩ :=
      handle_order_core_props os om none none cid ((wf_iff_WFP os).mp hwf)
    simp [resultOrder, hid]
  · rw [hho]
    cases hl : os.look_up_by_id cid with
    | none =>
      rw [resultOrder, handle_order_core_none os om none none cid hl]
      simp only [storedError, hl]
      split <;> rfl
    | some o =>
      rw [resultOrder, handle_order_core_some os om none none cid o hl]
      simp only [storedError, hl]
      split <;> rfl
  · unfold Market.handle_order Market.resolve_order_id
    rw [hnone]
  · exact handle_trader_status_orders_err m.orders _ ⟨om2, hmem, hnone⟩

/-- Witness for `c9_trader_status_no_envelope`. -/
theorem c9_trader_status_no_envelope_witness :
    ((resultOrder (Market.handle_order Orders.empty c2WitnessMsg none none)).map
        Order.id = some 7)
    ∧ ((resultOrder (Market.handle_order Orders.empty c2WitnessMsg none none)).map
        Order.error_code = some (storedError Orders.empty 7))
    ∧ (Market.handle_order Orders.empty zeroOrderMsg none none
        = Except.error "AttributeError: NoneType object has no attribute client_id")
    ∧ (isOkE (Market.handle_trader_status_msg baseState
        { trader_balance := 1, upnl := 2, pnl := 3, mark_price := 4,
          last_trade_price := 5, last_trade_quantity := 6, last_trade_timestamp := 7,
          order_margin := 8, buy_order_margin := 9, sell_order_margin := 10,
          position_contracts := 11, position_volume := 12,
          position_liquidation_volume := 13, position_bankruptcy_volume := 14,
          position_type := 1, position_margin := 15, leverage := 2,
          orders := [zeroOrderMsg] }) = false) :=
  c9_trader_status_no_envelope Orders.empty c2WitnessMsg zeroOrderMsg 7 baseState
    { trader_balance := 1, upnl := 2, pnl := 3, mark_price := 4,
      last_trade_price := 5, last_trade_quantity := 6, last_trade_timestamp := 7,
      order_margin := 8, buy_order_margin := 9, sell_order_margin := 10,
      position_contracts := 11, position_volume := 12,
      position_liquidation_volume := 13, position_bankruptcy_volume := 14,
      position_type := 1, position_margin := 15, leverage := 2,
      orders := [zeroOrderMsg] }
    rfl rfl rfl (by simp)

/-! ### Claim C5: notification coalescing -/

@[simp]
lemma setOrders_scheduled (s : MarketState) (os : Orders) :
    (Market.setOrders s os).scheduled_events = s.scheduled_events := rfl

/-- The embedded-order loop succeeds when every record has an inner
client id, does not change how often the trader's `on_update` hook is
pending, and preserves the no-duplicates property of the pending list. -/
lemma trader_status_orders_ok (oms : List OrderMsg) :
    ∀ s : MarketState, (∀ om ∈ oms, om.orig_client_id.isSome = true) →
      ∃ s', Market.handle_trader_status_orders s oms = Except.ok s'
        ∧ s'.scheduled_events.count Event.trader_on_update
            = s.scheduled_events.count Event.trader_on_update
        ∧ (s.scheduled_events.Nodup → s'.scheduled_events.Nodup) := by
  induction oms with
  | nil => intro s _; exact ⟨s, rfl, rfl, fun h => h⟩
  | cons om rest ih =>
    intro s h
    obtain ⟨cid, hcid⟩ := Option.isSome_iff_exists.mp (h om (by simp))
    have hho : Market.handle_order s.trader.orders om none none
        = Except.ok (Market.handle_order_core s.trader.orders om none none cid) := by
      unfold Market.handle_order Market.resolve_order_id
      rw [hcid]
    have hstep : Market.handle_trader_status_orders s (om :: rest)
        = Market.handle_trader_status_orders
          (Market.schedule_event
            (Market.setOrders s
              (Market.handle_order_core s.trader.orders om none none cid).orders)
            (Event.order_on_update
              (Market.handle_order_core s.trader.orders om none none cid).order.id))
          rest := by
      simp only [Market.handle_trader_status_orders]
      rw [hho]
    obtain ⟨s', hs', hcount, hnodup⟩ :=
      ih _ (fun x hx => h x (List.mem_cons_of_mem _ hx))
    refine ⟨s', hstep ▸ hs', ?_, ?_⟩
    · rw [hcount, count_schedule_event_ne]
      · rfl
      · intro hcon
        cases hcon
    · intro hnd
      exact hnodup (nodup_schedule_event _ _ hnd)

/-- Claim C5 (confirmed): during one trader-status message the trader's
`on_update` hook is requested by both the balance and the leverage
handler, yet the pending list holds it once; the flush then invokes every
distinct pending callback exactly once (the emitted list has no
duplicates and contains the trader hook exactly once) and clears the
pending list. -/
theorem c5_notification_coalescing (s : MarketState) (m : TraderStatusMsg)
    (cid : Nat) (ec : Int) (env : Event → EventResult)
    (h0 : s.scheduled_events = [])
    (h1 : ∀ om ∈ m.orders, om.orig_client_id.isSome = true)
    (h2 : ∀ e, (env e).supported = true) :
    ((emittedOf (Market.handle_message env
        { kontent := MessageKontent.trader_status_msg m, client_id := cid,
          error_code := ec } s)).map
      (fun l => l.count Event.trader_on_update) = some 1)
    ∧ ((emittedOf (Market.handle_message env
        { kontent := MessageKontent.trader_status_msg m, client_id := cid,
          error_code := ec } s)).map List.dedup
      = emittedOf (Market.handle_message env
        { kontent := MessageKontent.trader_status_msg m, client_id := cid,
          error_code := ec } s))
    ∧ ((stateOf (Market.handle_message env
        { kontent := MessageKontent.trader_status_msg m, client_id := cid,
          error_code := ec } s)).map MarketState.scheduled_events
      = some ([] : List Event)) := by
  have h6 : (Market.handle_leverage (Market.handle_position
      (Market.handle_order_margin (Market.handle_last_trade
      (Market.handle_mark_price (Market.handle_balance s
        m.trader_balance m.upnl m.pnl) m.mark_price)
        m.last_trade_price m.last_trade_quantity m.last_trade_timestamp)
        m.order_margin m.buy_order_margin m.sell_order_margin)
        m.position_contracts m.position_volume m.position_liquidation_volume
        m.position_bankruptcy_volume m.position_type m.position_margin)
        m.leverage).scheduled_events
      = [Event.trader_on_update, Event.currency_pair_on_update s.currency_pair_id,
         Event.last_trade_on_update, Event.orders_on_margins_update,
         Event.position_on_update] := by
    by_cases hlev : m.leverage = 0 <;>
      simp [Market.handle_balance, Market.handle_mark_price, Market.handle_last_trade,
        Market.handle_order_margin, Market.handle_position, Market.handle_leverage,
        Market.setOrders, Market.schedule_event, h0, hlev]
  obtain ⟨s', hs', hcount, hnodup⟩ := trader_status_orders_ok m.orders _ h1
  have hdisp : Market.handle_trader_status_msg s m = Except.ok s' := hs'
  have hcount' : s'.scheduled_events.count Event.trader_on_update = 1 := by
    rw [hcount, h6]
    rfl
  have hnodup' : s'.scheduled_events.Nodup := by
    apply hnodup
    rw [h6]
    simp
  obtain ⟨tasks, hrun⟩ :=
    run_events_ok env s'.scheduled_events (fun e _ => h2 e) [] 0
  have hmsg : Market.handle_message env
      { kontent := MessageKontent.trader_status_msg m, client_id := cid,
        error_code := ec } s
      = Except.ok ({ s' with scheduled_events := [] }, s'.scheduled_events) := by
    have hred : Market.handle_message env
        { kontent := MessageKontent.trader_status_msg m, client_id := cid,
          error_code := ec } s
        = (match Market.handle_trader_status_msg s m with
           | Except.error e => Except.error e
           | Except.ok s1 =>
             match Market.run_events env s1.scheduled_events [] 0 with
             | Except.error e => Except.error e
             | Except.ok (emitted, _t) =>
               Except.ok ({ s1 with scheduled_events := [] }, emitted)) := rfl
    rw [hred, hdisp]
    show (match Market.run_events env s'.scheduled_events [] 0 with
          | Except.error e => Except.error e
          | Except.ok (emitted, _t) =>
            Except.ok ({ s' with scheduled_events := [] }, emitted))
        = Except.ok ({ s' with scheduled_events := [] }, s'.scheduled_events)
    rw [hrun]
    rfl
  rw [hmsg]
  refine ⟨?_, ?_, ?_⟩
  · simp [emittedOf, hcount']
  · simp [emittedOf, List.dedup_eq_self.mpr hnodup']
  · simp [stateOf]

/-- Witness for `c5_notification_coalescing` at the base state with the
all-`None` callback environment. -/
theorem c5_notification_coalescing_witness :
    ((emittedOf (Market.handle_message envNothing
        { kontent := MessageKontent.trader_status_msg
            { trader_balance := 1, upnl := 2, pnl := 3, mark_price := 4,
              last_trade_price := 5, last_trade_quantity := 6,
              last_trade_timestamp := 7, order_margin := 8,
              buy_order_margin := 9, sell_order_margin := 10,
              position_contracts := 11, position_volume := 12,
              position_liquidation_volume := 13, position_bankruptcy_volume := 14,
              position_type := 1, position_margin := 15, leverage := 2,
              orders := [] },
          client_id := 0, error_code := 0 } baseState)).map
      (fun l => l.count Event.trader_on_update) = some 1)
    ∧ ((emittedOf (Market.handle_message envNothing
        { kontent := MessageKontent.trader_status_msg
            { trader_balance := 1, upnl := 2, pnl := 3, mark_price := 4,
              last_trade_price := 5, last_trade_quantity := 6,
              last_trade_timestamp := 7, order_margin := 8,
              buy_order_margin := 9, sell_order_margin := 10,
              position_contracts := 11, position_volume := 12,
              position_liquidation_volume := 13, position_bankruptcy_volume := 14,
              position_type := 1, position_margin := 15, leverage := 2,
              orders := [] },
          client_id := 0, error_code := 0 } baseState)).map List.dedup
      = emittedOf (Market.handle_message envNothing
        { kontent := MessageKontent.trader_status_msg
            { trader_balance := 1, upnl := 2, pnl := 3, mark_price := 4,
              last_trade_price := 5, last_trade_quantity := 6,
              last_trade_timestamp := 7, order_margin := 8,
              buy_order_margin := 9, sell_order_margin := 10,
              position_contracts := 11, position_volume := 12,
              position_liquidation_volume := 13, position_bankruptcy_volume := 14,
              position_type := 1, position_margin := 15, leverage := 2,
              orders := [] },
          client_id := 0, error_code := 0 } baseState))
    ∧ ((stateOf (Market.handle_message envNothing
        { kontent := MessageKontent.trader_status_msg
            { trader_balance := 1, upnl := 2, pnl := 3, mark_price := 4,
              last_trade_price := 5, last_trade_quantity := 6,
              last_trade_timestamp := 7, order_margin := 8,
              buy_order_margin := 9, sell_order_margin := 10,
              position_contracts := 11, position_volume := 12,
              position_liquidation_volume := 13, position_bankruptcy_volume := 14,
              position_type := 1, position_margin := 15, leverage := 2,
              orders := [] },
          client_id := 0, error_code := 0 } baseState)).map
      MarketState.scheduled_events = some ([] : List Event)) :=
  c5_notification_coalescing baseState
    { trader_balance := 1, upnl := 2, pnl := 3, mark_price := 4,
      last_trade_price := 5, last_trade_quantity := 6, last_trade_timestamp := 7,
      order_margin := 8, buy_order_margin := 9, sell_order_margin := 10,
      position_contracts := 11, position_volume := 12,
      position_liquidation_volume := 13, position_bankruptcy_volume := 14,
      position_type := 1, position_margin := 15, leverage := 2, orders := [] }
    0 0 envNothing rfl (by simp) (fun _ => rfl)

end BotFramework
